import Mathlib

set_option maxRecDepth 100000
set_option maxHeartbeats 1000000

/-!
# Verification of the Shahid-AI-Tagging response resolver

A shallow embedding of the response-parsing core of `src/ai_analyzer.py`
(class `AIAnalyzer`) and of the catalog view of `src/mind_map_parser.py`
(class `MindMapParser`), together with proofs about the claims of the
specification.

Conventions of the embedding:
* Python strings are modelled as Lean `String`/`List Char`, restricted to
  the ASCII behaviour of `str.upper`, `str.lower`, `\w`, `\s` and
  `str.isdigit`-style character classes (the catalog data and replies the
  claims discuss are ASCII apart from the Arabic marker words, which are
  handled by plain substring search exactly as in the source).
* Python floats (similarity scores, thresholds) are modelled as `ℚ`.
* Python `None` results are modelled by `Option`.
* Python regular expressions are modelled by a small backtracking engine
  (`RE`, `reMatch`) with the patterns of the source transcribed literally;
  the engine implements leftmost match, ordered alternation, greedy/lazy
  repetition, word boundaries and lookahead exactly as `re` does for the
  patterns in question.
-/

/-! ## Python character helpers (ASCII model) -/

/-- The 26 lowercase/uppercase ASCII pairs, used to model `str.upper`. -/
def lowerUpperTable : List (Char × Char) :=
  [(Char.ofNat 97, Char.ofNat 65), (Char.ofNat 98, Char.ofNat 66),
   (Char.ofNat 99, Char.ofNat 67), (Char.ofNat 100, Char.ofNat 68),
   (Char.ofNat 101, Char.ofNat 69), (Char.ofNat 102, Char.ofNat 70),
   (Char.ofNat 103, Char.ofNat 71), (Char.ofNat 104, Char.ofNat 72),
   (Char.ofNat 105, Char.ofNat 73), (Char.ofNat 106, Char.ofNat 74),
   (Char.ofNat 107, Char.ofNat 75), (Char.ofNat 108, Char.ofNat 76),
   (Char.ofNat 109, Char.ofNat 77), (Char.ofNat 110, Char.ofNat 78),
   (Char.ofNat 111, Char.ofNat 79), (Char.ofNat 112, Char.ofNat 80),
   (Char.ofNat 113, Char.ofNat 81), (Char.ofNat 114, Char.ofNat 82),
   (Char.ofNat 115, Char.ofNat 83), (Char.ofNat 116, Char.ofNat 84),
   (Char.ofNat 117, Char.ofNat 85), (Char.ofNat 118, Char.ofNat 86),
   (Char.ofNat 119, Char.ofNat 87), (Char.ofNat 120, Char.ofNat 88),
   (Char.ofNat 121, Char.ofNat 89), (Char.ofNat 122, Char.ofNat 90)]

/-- ASCII model of Python `str.upper` on a single character. -/
def pyUpper (c : Char) : Char :=
  (((lowerUpperTable.find? (fun p => p.1 == c)).map (fun p => p.2)).getD c)

/-- ASCII model of Python `str.lower` on a single character. -/
def pyLower (c : Char) : Char :=
  (((lowerUpperTable.find? (fun p => p.2 == c)).map (fun p => p.1)).getD c)

/-- ASCII model of the regex class `\w` (alphanumeric or underscore). -/
def isWordChar (c : Char) : Bool := c.isAlphanum || c == Char.ofNat 95

/-- ASCII model of the regex class `\s` / Python `str.strip` whitespace. -/
def isPySpace (c : Char) : Bool :=
  c == ' ' || c == Char.ofNat 9 || c == Char.ofNat 10 || c == Char.ofNat 13 ||
  c == Char.ofNat 11 || c == Char.ofNat 12

/-- Python `str.upper` on a string. -/
def pyUpperS (s : String) : String := String.mk (s.toList.map pyUpper)

/-- Python `str.lower` on a string. -/
def pyLowerS (s : String) : String := String.mk (s.toList.map pyLower)

/-- Python `str.strip()` on a character list. -/
def pyStripL (l : List Char) : List Char :=
  ((l.dropWhile isPySpace).reverse.dropWhile isPySpace).reverse

/-- Python `str.strip()` on a string. -/
def pyStripS (s : String) : String := String.mk (pyStripL s.toList)

/-- Naive substring test: Python `needle in hay`. The empty needle is
contained in everything, as in Python. -/
def containsSub : (hay : List Char) → (needle : List Char) → Bool
  | hay, needle =>
    needle.isPrefixOf hay ||
      match hay with
      | [] => false
      | _ :: rest => containsSub rest needle

/-- Python `sub in s` on strings. -/
def strContains (s sub : String) : Bool := containsSub s.toList sub.toList

/-- Fuel-driven worker for `pyWords` (fuel bounds the recursion depth;
`pyWords` supplies enough fuel for any input). -/
def pyWordsAux : Nat → List Char → List (List Char)
  | 0, _ => []
  | _, [] => []
  | fuel + 1, c :: rest =>
    if isPySpace c then pyWordsAux fuel rest
    else
      (c :: rest.takeWhile (fun x => !isPySpace x)) ::
        pyWordsAux fuel (rest.dropWhile (fun x => !isPySpace x))

/-- Python `str.split()` with no argument: split on whitespace runs,
dropping empty pieces. -/
def pyWords (l : List Char) : List (List Char) := pyWordsAux (l.length + 1) l

/-- `' '.join(words)` for character lists. -/
def joinSpace (ws : List (List Char)) : List Char :=
  match ws with
  | [] => []
  | [w] => w
  | w :: rest => w ++ ' ' :: joinSpace rest

/-! ## Python `int()` parsing (base 10, underscore grouping)

`int(s)` on the strings reaching it in `_normalize_tag_id` (uppercase
alphanumerics and underscores, no sign, no whitespace) succeeds exactly on
`digit (["_"] digit)*` and ignores the underscores. -/

/-- Continuation of a digit run: accepts `(["_"] digit)*` after a digit. -/
def digitpartAux : List Char → Bool
  | [] => true
  | c :: rest =>
    if c == Char.ofNat 95 then
      match rest with
      | [] => false
      | d :: rest2 => d.isDigit && digitpartAux rest2
    else c.isDigit && digitpartAux rest

/-- Whether `int()` accepts the character list (Python `digitpart`). -/
def isDigitpart : List Char → Bool
  | [] => false
  | c :: rest => c.isDigit && digitpartAux rest

/-- Decimal value of a digit list (underscores already removed). -/
def digitsVal (l : List Char) : Nat :=
  l.foldl (fun a c => 10 * a + (c.toNat - 48)) 0

/-- Model of Python `int(s)` for the inputs of `_normalize_tag_id`. -/
def pyIntParse (l : List Char) : Option Nat :=
  if isDigitpart l then some (digitsVal (l.filter (fun c => c != Char.ofNat 95)))
  else none

/-! ## Decimal rendering and zero padding -/

/-- Decimal digit character (0–9). -/
def digitChar10 : Nat → Char
  | 0 => '0' | 1 => '1' | 2 => '2' | 3 => '3' | 4 => '4'
  | 5 => '5' | 6 => '6' | 7 => '7' | 8 => '8' | _ => '9'

/-- Fuel-driven worker for `natDigits`. -/
def natDigitsAux : Nat → Nat → List Char
  | 0, _ => []
  | fuel + 1, n =>
    if n < 10 then [digitChar10 n]
    else natDigitsAux fuel (n / 10) ++ [digitChar10 (n % 10)]

/-- Decimal digits of a natural number, most significant first. -/
def natDigits (n : Nat) : List Char := natDigitsAux (n + 1) n

/-- Python `str.zfill(4)` for sign-free strings: left-pad with zeros. -/
def zfill4 (l : List Char) : List Char :=
  List.replicate (4 - l.length) '0' ++ l

/-- Python `f"{n:04d}"` for natural `n`. -/
def pad04 (n : Nat) : List Char := zfill4 (natDigits n)

/-! ## `AIAnalyzer._normalize_tag_id` -/

/-- `re.sub(r'[^\w]', '', str(tag_id).upper())` of `_normalize_tag_id`. -/
def cleanedTagId (s : String) : List Char :=
  (s.toList.map pyUpper).filter isWordChar

/-- The `number_part` of `_normalize_tag_id`: the cleaned id with one
leading `T` dropped. -/
def tagIdRemainder (s : String) : List Char :=
  let cleaned := cleanedTagId s
  if cleaned.head? == some 'T' then cleaned.tail else cleaned

/-- `AIAnalyzer._normalize_tag_id`: normalize a tag id to `T` + 4 digits.
Empty input is falsy in Python and yields `None`; an empty number part is
treated as 0; a number part `int()` rejects falls back to
`"T" + number_part.zfill(4)`. -/
def normalizeTagId (s : String) : Option String :=
  if s.isEmpty then none
  else
    let numberPart := tagIdRemainder s
    if numberPart.isEmpty then some (String.mk ('T' :: pad04 0))
    else
      match pyIntParse numberPart with
      | some n => some (String.mk ('T' :: pad04 n))
      | none => some (String.mk ('T' :: zfill4 numberPart))

example : normalizeTagId "t9" = some "T0009" := by decide
example : normalizeTagId "T009" = some "T0009" := by decide
example : normalizeTagId "(T9)" = some "T0009" := by decide
example : normalizeTagId "XYZ" = some "T0XYZ" := by decide
example : normalizeTagId "_1" = some "T00_1" := by decide
example : normalizeTagId "T00_1" = some "T0001" := by decide
example : normalizeTagId "" = none := by decide
example : normalizeTagId "!!!" = some "T0000" := by decide

/-! ## A small backtracking regex engine

Implements exactly the features used by the patterns of
`ai_analyzer.py`: character classes, ordered alternation, greedy and lazy
counted repetition, one capturing group, word boundaries, `^`-at-start,
multiline `^`, `$` (end of text or just before a final newline) and
lookahead.  Matching is continuation-passing with a fuel bound on the
recursion depth; callers supply fuel that is ample for the input. -/

inductive RE where
  | eps : RE
  | cls : (Char → Bool) → RE
  | seq : RE → RE → RE
  | alt : RE → RE → RE
  | rep : RE → Nat → Option Nat → Bool → RE
  | grp : RE → RE
  | wordB : RE
  | bos : RE
  | caretM : RE
  | dollarE : RE
  | ahead : RE → RE

/-- Size of a pattern, used to compute ample fuel. -/
def reSize : RE → Nat
  | RE.eps => 1
  | RE.cls _ => 1
  | RE.seq a b => 1 + reSize a + reSize b
  | RE.alt a b => 1 + reSize a + reSize b
  | RE.rep r lo hi _ =>
    1 + (lo + (match hi with | some h => h | none => 1) + 2) * (reSize r + 1)
  | RE.grp r => 1 + reSize r
  | RE.wordB => 1
  | RE.bos => 1
  | RE.caretM => 1
  | RE.dollarE => 1
  | RE.ahead r => 1 + reSize r

/-- Is the character at position `i` (if any) a word character? -/
def isWordAt (t : List Char) (i : Nat) : Bool :=
  match t.get? i with
  | some c => isWordChar c
  | none => false

/-- Python `\b`: word-ness changes between the previous position and here. -/
def atBoundary (t : List Char) (p : Nat) : Bool :=
  isWordAt t p != (if p == 0 then false else isWordAt t (p - 1))

/-- Backtracking matcher.  `k` is the success continuation receiving the
end position and the group-1 span; the first success in Python preference
order (ordered alternation, greedy/lazy repetition) is returned. -/
def reMatch (t : List Char) :
    Nat → RE → Nat → Option (Nat × Nat) →
    (Nat → Option (Nat × Nat) → Option (Nat × Option (Nat × Nat))) →
    Option (Nat × Option (Nat × Nat))
  | 0, _, _, _, _ => none
  | _ + 1, RE.eps, p, g, k => k p g
  | _ + 1, RE.cls f, p, g, k =>
    match t.get? p with
    | some c => if f c then k (p + 1) g else none
    | none => none
  | fuel + 1, RE.seq a b, p, g, k =>
    reMatch t fuel a p g (fun p2 g2 => reMatch t fuel b p2 g2 k)
  | fuel + 1, RE.alt a b, p, g, k =>
    (reMatch t fuel a p g k).orElse (fun _ => reMatch t fuel b p g k)
  | fuel + 1, RE.rep r lo hi lz, p, g, k =>
    match lo with
    | l + 1 =>
      reMatch t fuel r p g (fun p2 g2 =>
        reMatch t fuel (RE.rep r l (hi.map Nat.pred) lz) p2 g2 k)
    | 0 =>
      match hi with
      | some 0 => k p g
      | _ =>
        let tryMore := fun (_ : Unit) =>
          reMatch t fuel r p g (fun p2 g2 =>
            if p2 > p then
              reMatch t fuel (RE.rep r 0 (hi.map Nat.pred) lz) p2 g2 k
            else none)
        if lz then (k p g).orElse tryMore
        else (tryMore ()).orElse (fun _ => k p g)
  | fuel + 1, RE.grp r, p, g, k =>
    reMatch t fuel r p g (fun p2 _ => k p2 (some (p, p2)))
  | _ + 1, RE.wordB, p, g, k => if atBoundary t p then k p g else none
  | _ + 1, RE.bos, p, g, k => if p == 0 then k p g else none
  | _ + 1, RE.caretM, p, g, k =>
    if p == 0 || t.get? (p - 1) == some (Char.ofNat 10) then k p g else none
  | _ + 1, RE.dollarE, p, g, k =>
    if p == t.length || (p + 1 == t.length && t.get? p == some (Char.ofNat 10))
    then k p g else none
  | fuel + 1, RE.ahead r, p, g, k =>
    match reMatch t fuel r p g (fun p2 g2 => some (p2, g2)) with
    | some _ => k p g
    | none => none

/-- Ample fuel for matching `re` against `t`. -/
def reFuel (t : List Char) (re : RE) : Nat :=
  (t.length + 2) * (reSize re + 2)

/-- Try a match anchored at position `p`; returns the end position and the
group-1 span. -/
def reMatchAt (t : List Char) (re : RE) (p : Nat) :
    Option (Nat × Option (Nat × Nat)) :=
  reMatch t (reFuel t re) re p none (fun e g => some (e, g))

/-- Leftmost search from `start` (like `re.search` at an offset): returns
(start, end, group span) of the first match. -/
def reSearchAux (t : List Char) (re : RE) :
    Nat → Nat → Option (Nat × Nat × Option (Nat × Nat))
  | 0, _ => none
  | fuel + 1, start =>
    match reMatchAt t re start with
    | some (e, g) => some (start, e, g)
    | none =>
      if start < t.length then reSearchAux t re fuel (start + 1) else none

/-- `re.search` from a given offset. -/
def reSearch (t : List Char) (re : RE) (start : Nat) :
    Option (Nat × Nat × Option (Nat × Nat)) :=
  reSearchAux t re (t.length + 1 - start) start

/-- Python sliceL `t[a:b]`. -/
def sliceL (t : List Char) (a b : Nat) : List Char := (t.drop a).take (b - a)

/-- Worker for `reFindall`. -/
def reFindallAux (t : List Char) (re : RE) (hasGrp : Bool) :
    Nat → Nat → List (List Char)
  | 0, _ => []
  | fuel + 1, pos =>
    match reSearch t re pos with
    | none => []
    | some (s, e, g) =>
      let item :=
        if hasGrp then
          match g with
          | some (gs, ge) => sliceL t gs ge
          | none => []
        else sliceL t s e
      item :: reFindallAux t re hasGrp fuel (if e > s then e else e + 1)

/-- `re.findall`: all non-overlapping matches left to right; yields the
group-1 text when the pattern has a capturing group, else the whole
match. -/
def reFindall (t : List Char) (re : RE) (hasGrp : Bool) : List (List Char) :=
  reFindallAux t re hasGrp (t.length + 2) 0

/-- Worker for `reRemoveAll`. -/
def reRemoveAllAux (t : List Char) (re : RE) : Nat → Nat → List Char
  | 0, pos => t.drop pos
  | fuel + 1, pos =>
    match reSearch t re pos with
    | none => t.drop pos
    | some (s, e, _) =>
      if e > s then sliceL t pos s ++ reRemoveAllAux t re fuel e
      else
        match t.get? s with
        | some c => sliceL t pos s ++ c :: reRemoveAllAux t re fuel (s + 1)
        | none => sliceL t pos s

/-- `re.sub(pattern, '', text)`: delete all non-overlapping matches. -/
def reRemoveAll (t : List Char) (re : RE) : List Char :=
  reRemoveAllAux t re (t.length + 2) 0

/-- Worker for `reSplit`. -/
def reSplitAux (t : List Char) (re : RE) : Nat → Nat → List (List Char)
  | 0, pos => [t.drop pos]
  | fuel + 1, pos =>
    match reSearch t re pos with
    | none => [t.drop pos]
    | some (s, e, _) =>
      if e > s then sliceL t pos s :: reSplitAux t re fuel e
      else [t.drop pos]

/-- `re.split(pattern, text)` for patterns that cannot match empty. -/
def reSplit (t : List Char) (re : RE) : List (List Char) :=
  reSplitAux t re (t.length + 2) 0

/-! ### Pattern-building helpers -/

/-- Exact single character. -/
def rchr (c : Char) : RE := RE.cls (fun x => x == c)

/-- Case-insensitive single character (IGNORECASE literals). -/
def ichr (c : Char) : RE := RE.cls (fun x => pyLower x == pyLower c)

/-- Sequence of several patterns. -/
def seqs (l : List RE) : RE := l.foldr RE.seq RE.eps

/-- Exact literal string. -/
def rstr (s : String) : RE := seqs (s.toList.map rchr)

/-- Case-insensitive literal string. -/
def istr (s : String) : RE := seqs (s.toList.map ichr)

/-- `\s` -/
def rws : RE := RE.cls isPySpace

/-- `\d` -/
def rdigit : RE := RE.cls Char.isDigit

/-- `r*` (greedy) -/
def rstar (r : RE) : RE := RE.rep r 0 none false

/-- `r+` (greedy) -/
def rplus (r : RE) : RE := RE.rep r 1 none false

/-- `r?` (greedy) -/
def ropt (r : RE) : RE := RE.rep r 0 (some 1) false

example :
    reFindall "ab T0009 cd".toList
      (seqs [RE.wordB, ichr 'T', RE.rep rdigit 4 (some 4) false, RE.wordB])
      false = ["T0009".toList] := by decide
example :
    reSearch "xx(ab) ".toList
      (seqs [rstar rws, rchr '(',
             RE.rep (RE.cls (fun c => c != Char.ofNat 10)) 0 none true,
             rchr ')', rstar rws, RE.dollarE]) 0 =
      some (2, 7, none) := by decide

/-! ## The regex patterns of `ai_analyzer.py`, transcribed literally -/

/-- The newline character. -/
def nlChar : Char := Char.ofNat 10

/-- The double-quote character. -/
def dqChar : Char := Char.ofNat 34

/-- The single-quote character. -/
def sqChar : Char := Char.ofNat 39

/-- `[:\-]` -/
def clsColonDash : RE := RE.cls (fun c => c == ':' || c == '-')

/-- `[^\n]` -/
def clsNotNl : RE := RE.cls (fun c => c != nlChar)

/-- `(?:tag|tags?)` — ordered alternation as written in the source. -/
def altTagTags : RE := RE.alt (istr "tag") (RE.seq (istr "tag") (ropt (ichr 's')))

/-- Pattern 1 of `_extract_tags_from_response` (IGNORECASE | MULTILINE):
`(?:recommended\s+tag(?:s)?|tag(?:s)?\s+recommended)[:\-]?\s*(?:\[|\()?([^\]]+?)(?:\]|\))?` -/
def patRecommended : RE :=
  seqs [RE.alt (seqs [istr "recommended", rplus rws, istr "tag", ropt (ichr 's')])
               (seqs [istr "tag", ropt (ichr 's'), rplus rws, istr "recommended"]),
        ropt clsColonDash, rstar rws,
        ropt (RE.alt (rchr '[') (rchr '(')),
        RE.grp (RE.rep (RE.cls (fun c => c != ']')) 1 none true),
        ropt (RE.alt (rchr ']') (rchr ')'))]

/-- Pattern 2 of `_extract_tags_from_response` (IGNORECASE | MULTILINE):
`(?:^|\n)\s*(?:tag|tags)[:\-]\s*([^\n]+)` -/
def patTagLine : RE :=
  seqs [RE.alt RE.caretM (rchr nlChar), rstar rws,
        RE.alt (istr "tag") (istr "tags"),
        clsColonDash, rstar rws,
        RE.grp (RE.rep clsNotNl 1 none false)]

/-- Pattern 3 of `_extract_tags_from_response` (IGNORECASE | MULTILINE):
`(?:^|\n)\s*(?:[-*•]|\d+[\.\)])\s*(?:tag|tags?)?[:\-]?\s*([^\n]+)` -/
def patBullet : RE :=
  seqs [RE.alt RE.caretM (rchr nlChar), rstar rws,
        RE.alt (RE.cls (fun c => c == '-' || c == '*' || c == Char.ofNat 8226))
               (seqs [rplus rdigit, RE.cls (fun c => c == '.' || c == ')')]),
        rstar rws, ropt altTagTags, ropt clsColonDash, rstar rws,
        RE.grp (RE.rep clsNotNl 1 none false)]

/-- Pattern 4 of `_extract_tags_from_response` (no flags), also Method 1 of
`_extract_tags_from_reasoning`: `"([^"]{10,})"` -/
def patQuoted : RE :=
  seqs [rchr dqChar,
        RE.grp (RE.rep (RE.cls (fun c => c != dqChar)) 10 none false),
        rchr dqChar]

/-- The split pattern `[,;]|and` (compiled without flags). -/
def patSplitAnd : RE :=
  RE.alt (RE.cls (fun c => c == ',' || c == ';')) (rstr "and")

/-- `(T\d{1,4})` body shared by the id patterns. -/
def reTagIdBody : RE := seqs [ichr 'T', RE.rep rdigit 1 (some 4) false]

/-- The ordered id patterns of `_extract_tag_ids_from_text` (IGNORECASE),
paired with whether the pattern has a capturing group:
1. `\bT\d{4}\b`  2. `\bT\d{1,3}\b`
3. `\btag\s+(?:id|#)?\s*[:\-]?\s*(T\d{1,4})`  4. `(?:tag|tags?)\s+(T\d{1,4})`
5. `\[(T\d{1,4})\]`  6. `\(T\d{1,4}\)`  7. `T\d{1,4}(?=\s|,|;|\.|$)` -/
def idPatterns : List (RE × Bool) :=
  [(seqs [RE.wordB, ichr 'T', RE.rep rdigit 4 (some 4) false, RE.wordB], false),
   (seqs [RE.wordB, ichr 'T', RE.rep rdigit 1 (some 3) false, RE.wordB], false),
   (seqs [RE.wordB, istr "tag", rplus rws, ropt (RE.alt (istr "id") (rchr '#')),
          rstar rws, ropt clsColonDash, rstar rws, RE.grp reTagIdBody], true),
   (seqs [altTagTags, rplus rws, RE.grp reTagIdBody], true),
   (seqs [rchr '[', RE.grp reTagIdBody, rchr ']'], true),
   (seqs [rchr '(', reTagIdBody, rchr ')'], false),
   (seqs [reTagIdBody,
          RE.ahead (RE.alt rws (RE.alt (rchr ',') (RE.alt (rchr ';')
            (RE.alt (rchr '.') RE.dollarE))))], false)]

/-- `^(tag|tags?):\s*` (IGNORECASE) of `_normalize_tag_name`. -/
def patTagPrefix : RE :=
  seqs [RE.bos, RE.grp altTagTags, rchr ':', rstar rws]

/-- `\s*\(.*?\)\s*$` of `_normalize_tag_name`. -/
def patTrailParens : RE :=
  seqs [rstar rws, rchr '(', RE.rep clsNotNl 0 none true, rchr ')',
        rstar rws, RE.dollarE]

/-- `^T\d{1,4}$` (no flags) of `_validate_and_match_tags`. -/
def patTagIdExact : RE :=
  seqs [RE.bos, rchr 'T', RE.rep rdigit 1 (some 4) false, RE.dollarE]

/-! ## `AIAnalyzer._normalize_tag_name` -/

/-- `AIAnalyzer._normalize_tag_name`: collapse whitespace, strip a leading
`tag:`/`tags:` label, strip a trailing parenthesized suffix, trim. -/
def normalizeTagName (s : String) : String :=
  if s.isEmpty then ""
  else
    let n1 := joinSpace (pyWords s.toList)
    let n2 := reRemoveAll n1 patTagPrefix
    let n3 := reRemoveAll n2 patTrailParens
    String.mk (pyStripL n3)

example : normalizeTagName "tag:" = "" := by decide
example : normalizeTagName "  Billing   Issue (note) " = "Billing Issue" := by
  decide
example : normalizeTagName "Tags: Payment Error" = "Payment Error" := by decide
example : normalizeTagName "()" = "" := by decide

/-! ## `difflib.SequenceMatcher` (as used by `_fuzzy_match_tag`)

`SequenceMatcher(None, a, b).ratio()` with the default autojunk heuristic:
`2 * M / T` where `M` is the total size of the matching blocks and `T` the
total length.  `isjunk` is `None`, so the junk set is empty; autojunk drops
characters occurring more than `len(b)/100 + 1` times when
`len(b) >= 200`. -/

/-- Positions of a character in `b`, ascending (difflib `b2j`). -/
def positionsOf (b : List Char) (c : Char) : List Nat :=
  (b.enum.filter (fun p => p.2 == c)).map (fun p => p.1)

/-- Number of occurrences of `c` in `b`. -/
def countChar (b : List Char) (c : Char) : Nat :=
  (b.filter (fun x => x == c)).length

/-- difflib autojunk: popular characters of a long `b`. -/
def isPopular (b : List Char) (c : Char) : Bool :=
  b.length ≥ 200 && countChar b c > b.length / 100 + 1

/-- `b2j` lookup after autojunk deletion. -/
def b2jGet (b : List Char) (c : Char) : List Nat :=
  if isPopular b c then [] else positionsOf b c

/-- The empty junk test of `SequenceMatcher(None, a, b)`. -/
def bjunk (_ : Char) : Bool := false

/-- Equality of `a[i]` and `b[j]` (false out of range). -/
def charEq (a : List Char) (i : Nat) (b : List Char) (j : Nat) : Bool :=
  match a.get? i, b.get? j with
  | some x, some y => x == y
  | _, _ => false

/-- Inner loop of `find_longest_match` over the positions of `a[i]` in
`b`: extends diagonal runs recorded in `j2len`, tracking the best block. -/
def flmInner (i blo bhi : Nat) :
    List Nat → List (Nat × Nat) → List (Nat × Nat) → Nat × Nat × Nat →
    List (Nat × Nat) × (Nat × Nat × Nat)
  | [], _, acc, best => (acc, best)
  | j :: rest, j2len, acc, best =>
    if j < blo then flmInner i blo bhi rest j2len acc best
    else if bhi ≤ j then (acc, best)
    else
      let prev := if j == 0 then 0 else (List.lookup (j - 1) j2len).getD 0
      let k := prev + 1
      let acc2 := acc ++ [(j, k)]
      let best2 := if k > best.2.2 then (i + 1 - k, j + 1 - k, k) else best
      flmInner i blo bhi rest j2len acc2 best2

/-- Outer loop of `find_longest_match` over `a[alo:ahi]`. -/
def flmOuter (a b : List Char) (blo bhi : Nat) :
    Nat → Nat → List (Nat × Nat) → Nat × Nat × Nat → Nat × Nat × Nat
  | 0, _, _, best => best
  | cnt + 1, i, j2len, best =>
    let js := match a.get? i with
      | some c => b2jGet b c
      | none => []
    let r := flmInner i blo bhi js j2len [] best
    flmOuter a b blo bhi cnt (i + 1) r.1 r.2

/-- Leftward extension loop of `find_longest_match` (`junkFlag` selects the
non-junk or the junk variant). -/
def extLeft (a b : List Char) (alo blo : Nat) (junkFlag : Bool) :
    Nat → Nat × Nat × Nat → Nat × Nat × Nat
  | 0, best => best
  | fuel + 1, (bi, bj, bs) =>
    if alo < bi && blo < bj &&
       ((match b.get? (bj - 1) with | some c => bjunk c | none => false)
         == junkFlag) &&
       charEq a (bi - 1) b (bj - 1)
    then extLeft a b alo blo junkFlag fuel (bi - 1, bj - 1, bs + 1)
    else (bi, bj, bs)

/-- Rightward extension loop of `find_longest_match`. -/
def extRight (a b : List Char) (ahi bhi : Nat) (junkFlag : Bool) :
    Nat → Nat × Nat × Nat → Nat × Nat × Nat
  | 0, best => best
  | fuel + 1, (bi, bj, bs) =>
    if bi + bs < ahi && bj + bs < bhi &&
       ((match b.get? (bj + bs) with | some c => bjunk c | none => false)
         == junkFlag) &&
       charEq a (bi + bs) b (bj + bs)
    then extRight a b ahi bhi junkFlag fuel (bi, bj, bs + 1)
    else (bi, bj, bs)

/-- difflib `find_longest_match` on `a[alo:ahi]`, `b[blo:bhi]`. -/
def findLongestMatch (a b : List Char) (alo ahi blo bhi : Nat) :
    Nat × Nat × Nat :=
  let f := a.length + b.length + 1
  let best0 := flmOuter a b blo bhi (ahi - alo) alo [] (alo, blo, 0)
  let best1 := extLeft a b alo blo false f best0
  let best2 := extRight a b ahi bhi false f best1
  let best3 := extLeft a b alo blo true f best2
  extRight a b ahi bhi true f best3

/-- Total size of the matching blocks (difflib `get_matching_blocks`,
summed — the queue order does not affect the sum). -/
def smMatchTotal (a b : List Char) : Nat → Nat → Nat → Nat → Nat → Nat
  | 0, _, _, _, _ => 0
  | fuel + 1, alo, ahi, blo, bhi =>
    let r := findLongestMatch a b alo ahi blo bhi
    if r.2.2 == 0 then 0
    else
      r.2.2 + smMatchTotal a b fuel alo r.1 blo r.2.1 +
        smMatchTotal a b fuel (r.1 + r.2.2) ahi (r.2.1 + r.2.2) bhi

/-- `SequenceMatcher(None, a, b).ratio()` as a rational. -/
def smSimilarity (a b : List Char) : ℚ :=
  let m := smMatchTotal a b (a.length + b.length + 1) 0 a.length 0 b.length
  let T := a.length + b.length
  if T == 0 then 1 else mkRat (2 * (m : Int)) T

example : smSimilarity "payment erro".toList "payment error".toList
    = mkRat 24 25 := by decide
example : smSimilarity "".toList "abc".toList = 0 := by decide
example : smSimilarity "abcd".toList "bcde".toList = mkRat 3 4 := by decide

/-! ## `AIAnalyzer._fuzzy_match_tag` -/

/-- The similarity the loop body of `_fuzzy_match_tag` assigns one catalog
name: SequenceMatcher ratio, forced to 1 on normalized equality, raised to
at least 0.9 on substring containment either way. -/
def fuzzySim (extracted tagName : String) : ℚ :=
  let ne := pyLowerS (normalizeTagName extracted)
  let nt := pyLowerS (normalizeTagName tagName)
  let sim := smSimilarity ne.toList nt.toList
  let sim := if ne == nt then 1 else sim
  if containsSub nt.toList ne.toList || containsSub ne.toList nt.toList then
    if sim ≤ mkRat 9 10 then mkRat 9 10 else sim
  else sim

/-- The loop body of `_fuzzy_match_tag`: keep the strictly better
score. -/
def fuzzyStep (extracted : String) (acc : Option String × ℚ)
    (tagName : String) : Option String × ℚ :=
  let s := fuzzySim extracted tagName
  if s > acc.2 then (some tagName, s) else acc

/-- `AIAnalyzer._fuzzy_match_tag`: best-scoring catalog name, accepted only
at or above the threshold; always reports the best score found. -/
def fuzzyMatchTag (extracted : String) (names : List String)
    (threshold : ℚ) : Option String × ℚ :=
  if extracted.isEmpty || names.isEmpty then (none, 0)
  else
    let best := names.foldl (fuzzyStep extracted)
      ((none : Option String), (0 : ℚ))
    if threshold ≤ best.2 then best else (none, best.2)

example : fuzzyMatchTag "tag:" ["Billing Issue", "()"] (mkRat 3 4)
    = (some "()", 1) := by decide
example : fuzzyMatchTag "Payment Erro" ["Billing Issue", "Payment Error"]
    (mkRat 3 4) = (some "Payment Error", mkRat 24 25) := by decide

/-! ## The catalog: `MindMapParser.tags` and `get_all_tags`

`MindMapParser.tags` is an insertion-ordered dict from unique keys to tag
records; sheet-context entries use keys starting with `_sheet_`.  Only the
`tag_id` and `tag_name` fields are consulted by the resolver; a missing
dict key is modelled by `none`. -/

structure TagRecord where
  tagId : Option String
  tagName : Option String
deriving DecidableEq, Repr

/-- Keys of sheet-context entries (skipped by `get_all_tags`). -/
def isSheetKey (k : String) : Bool :=
  "_sheet_".toList.isPrefixOf k.toList

/-- Worker for `getAllTags`, accumulating the ordered unique view. -/
def getAllTagsAux :
    List (String × TagRecord) → List (String × TagRecord) →
    List (String × TagRecord)
  | acc, [] => acc
  | acc, (k, v) :: rest =>
    if isSheetKey k then getAllTagsAux acc rest
    else
      let n := v.tagName.getD k
      if acc.any (fun p => p.1 == n) then getAllTagsAux acc rest
      else getAllTagsAux (acc ++ [(n, v)]) rest

/-- `MindMapParser.get_all_tags`: skip sheet entries and keep, per tag
name (`v.get('tag_name', k)`), only the first record. -/
def getAllTags (tags : List (String × TagRecord)) :
    List (String × TagRecord) :=
  getAllTagsAux [] tags

/-- `AIAnalyzer._get_tag_by_id`: normalize the requested id, scan the
`get_all_tags` view for the first record whose own (stripped, normalized)
`tag_id` agrees, and return that record's `tag_name`. -/
def getTagById (tags : List (String × TagRecord)) (tid : String) :
    Option String :=
  let allTags := getAllTags tags
  if allTags.isEmpty then none
  else
    match normalizeTagId tid with
    | none => none
    | some nid =>
      match (allTags.map (fun p => p.2)).find? (fun v =>
        match v.tagId with
        | some raw => normalizeTagId (pyStripS raw) == some nid
        | none => false) with
      | some v => v.tagName
      | none => none

/-! ## `AIAnalyzer._extract_tag_ids_from_text` -/

/-- `AIAnalyzer._extract_tag_ids_from_text`: run the seven id patterns in
order, normalize every match, and deduplicate preserving first-seen
order. -/
def extractTagIdsFromText (text : String) : List String :=
  idPatterns.foldl (fun found pat =>
    (reFindall text.toList pat.1 pat.2).foldl (fun found m =>
      if m.isEmpty then found
      else
        match normalizeTagId (String.mk m) with
        | some nid => if found.contains nid then found else found ++ [nid]
        | none => found) found) []

example : extractTagIdsFromText "t9" = ["T0009"] := by decide
example : extractTagIdsFromText "T009" = ["T0009"] := by decide
example : extractTagIdsFromText "(T9)" = ["T0009"] := by decide
example : extractTagIdsFromText "tag T9" = ["T0009"] := by decide
example : extractTagIdsFromText "T0009" = ["T0009"] := by decide

/-! ## `AIAnalyzer._extract_tags_from_response` -/

/-- `re.sub(r'[\[\]()]', '', match)`. -/
def stripBrackets (l : List Char) : List Char :=
  l.filter (fun c => !(c == '[' || c == ']' || c == '(' || c == ')'))

/-- `[t.strip() for t in re.split(r'[,;]|and', match)]`. -/
def splitCandidates (m : List Char) : List String :=
  (reSplit m patSplitAnd).map (fun t => String.mk (pyStripL t))

/-- `AIAnalyzer._extract_tags_from_response`: the four extraction patterns
in source order, then order-preserving deduplication by normalized
lowercase name. -/
def extractTagsFromResponse (text : String) : List String :=
  let t := text.toList
  let tags1 := (reFindall t patRecommended true).foldl (fun acc m =>
    acc ++ (splitCandidates m).filter (fun s => !(s == ""))) []
  let tags2 := (reFindall t patTagLine true).foldl (fun acc m =>
    acc ++ ((splitCandidates (stripBrackets m)).filter
      (fun s => !(s == "") && s.length > 3))) tags1
  let tags3 := (reFindall t patBullet true).foldl (fun acc m =>
    let st := pyStripL (stripBrackets m)
    if st.length > 5 &&
       !(["the", "this", "these"].any (fun p =>
          p.toList.isPrefixOf (st.map pyLower)))
    then acc ++ [String.mk st] else acc) tags2
  let tags4 := (reFindall t patQuoted true).foldl (fun acc m =>
    if (pyWords m).length ≤ 15 &&
       !(match (pyStripL m).getLast? with
         | some c => c == '.' || c == '!' || c == '?'
         | none => false)
    then acc ++ [String.mk (pyStripL m)] else acc) tags3
  (tags4.foldl (fun (st : List String × List String) tag =>
    let nm := pyLowerS (normalizeTagName tag)
    if nm == "" || st.2.contains nm then st
    else (st.1 ++ [tag], st.2 ++ [nm])) ([], [])).1

example : extractTagsFromResponse "Tag: Billing Issue" = ["Billing Issue"] := by
  decide
example : extractTagsFromResponse "I cannot help with this" = [] := by decide

/-! ## `AIAnalyzer._validate_and_match_tags` -/

/-- `re.match(r'^T\d{1,4}$', s)` as a boolean. -/
def matchesTagIdShape (s : String) : Bool :=
  (reMatchAt s.toList patTagIdExact 0).isSome

/-- One iteration of the validation loop of `_validate_and_match_tags`:
skip short candidates, resolve id-shaped candidates by lookup, else try
exact normalized equality, else fuzzy matching at threshold 0.75.  The
state is the validated list plus the score table. -/
def validateStep (tags : List (String × TagRecord)) (names : List String)
    (acc : List String × List (String × ℚ)) (ex : String) :
    List String × List (String × ℚ) :=
  if ex == "" || (pyStripS ex).length < 3 then acc
  else
    let clean := pyUpperS (pyStripS ex)
    if matchesTagIdShape clean then
      match normalizeTagId clean with
      | some nid =>
        match getTagById tags nid with
        | some name =>
          if acc.1.contains name then acc
          else (acc.1 ++ [name], acc.2 ++ [(name, 1)])
        | none => acc
      | none => acc
    else
      let ne := pyLowerS (normalizeTagName ex)
      match names.find? (fun n => pyLowerS (normalizeTagName n) == ne) with
      | some em =>
        if acc.1.contains em then acc
        else (acc.1 ++ [em], acc.2 ++ [(em, 1)])
      | none =>
        match fuzzyMatchTag ex names (mkRat 3 4) with
        | (some fm, s) =>
          if acc.1.contains fm then acc
          else (acc.1 ++ [fm], acc.2 ++ [(fm, s)])
        | (none, _) => acc

/-- Stable insertion into a descending-by-score list (equal scores keep
insertion order, like Python's stable `list.sort`). -/
def insDesc (scores : List (String × ℚ)) (x : String) :
    List String → List String
  | [] => [x]
  | y :: ys =>
    if (List.lookup x scores).getD 0 ≤ (List.lookup y scores).getD 0 then
      y :: insDesc scores x ys
    else x :: y :: ys

/-- `validated_tags.sort(key=..., reverse=True)` — stable descending. -/
def stableSortDesc (scores : List (String × ℚ)) (l : List String) :
    List String :=
  l.foldl (fun acc x => insDesc scores x acc) []

/-- `AIAnalyzer._validate_and_match_tags`. -/
def validateAndMatchTags (tags : List (String × TagRecord))
    (extracted : List String) : List String :=
  let allTags := getAllTags tags
  if allTags.isEmpty then []
  else
    let names := allTags.filterMap (fun p => p.2.tagName)
    let r := extracted.foldl (validateStep tags names) ([], [])
    if r.2.isEmpty then r.1 else stableSortDesc r.2 r.1

/-! ## `AIAnalyzer._is_arabic_text` and the line scan of `_parse_ai_response` -/

/-- The Arabic alphabet constant of `_is_arabic_text`. -/
def arabicLetters : List Char := "ابتثجحخدذرزسشصضطظعغفقكلمنهوي".toList

/-- `AIAnalyzer._is_arabic_text`: more than 30% of the distinct characters
(spaces and newlines removed) are Arabic letters. -/
def isArabicText (s : String) : Bool :=
  let cs := (s.toList.filter (fun c => !(c == ' ' || c == nlChar))).eraseDups
  if cs.isEmpty then false
  else
    mkRat 3 10 <
      mkRat ((cs.filter (fun c => arabicLetters.contains c)).length : Int)
        cs.length

/-- `response_text.split('\n')`, worker. -/
def splitNlAux : List Char → List Char → List (List Char)
  | cur, [] => [cur.reverse]
  | cur, c :: rest =>
    if c == nlChar then cur.reverse :: splitNlAux [] rest
    else splitNlAux (c :: cur) rest

/-- `response_text.split('\n')`. -/
def pyLines (s : String) : List String :=
  (splitNlAux [] s.toList).map String.mk

/-- Scanner state of the STEP-4 loop of `_parse_ai_response`
(`current_section` ∈ none/reasoning/reference as 0/1/2). -/
structure ScanAcc where
  sec : Nat
  reas : List String
  refs : List String
  conf : String
deriving DecidableEq, Repr

/-- The reasoning-section trigger of the STEP-4 loop. -/
def reasoningMarker (line : String) : Bool :=
  strContains (pyLowerS line) "reasoning" || strContains line "المنطق" ||
    strContains line "الاستدلال"

/-- The confidence trigger of the STEP-4 loop.  (In the source both colon
literals of `(':' in line or ':' in line)` are the ASCII colon.) -/
def confMarkerLine (line : String) : Bool :=
  (strContains (pyLowerS line) "confidence" || strContains line "الثقة" ||
    strContains line "مستوى الثقة") && strContains line ":"

/-- The reference-section trigger of the STEP-4 loop. -/
def refMarker (line : String) : Bool :=
  strContains (pyLowerS line) "mind map reference" ||
    strContains (pyLowerS line) "reference" ||
    strContains line "مرجع" || strContains line "خريطة العقل"

/-- `line.split(':', 1)[1]` (callers guard that a colon is present). -/
def afterColon (line : String) : String :=
  String.mk ((line.toList.dropWhile (fun c => c != ':')).tail)

/-- Normalization of an explicit confidence value (both language
branches; the bracket replacements remove `[` and `]`). -/
def normalizeConfValue (isAr : Bool) (line : String) : String :=
  let conf := pyStripS (afterColon line)
  let conf := String.mk (conf.toList.filter (fun c => !(c == '[' || c == ']')))
  if isAr then
    let cl := pyLowerS conf
    if strContains cl "عالي" || strContains cl "عالية" ||
       strContains cl "high" then "High"
    else if strContains cl "منخفض" || strContains cl "منخفضة" ||
       strContains cl "low" then "Low"
    else "Medium"
  else
    let cl := pyStripS (pyLowerS conf)
    if strContains cl "high" then "High"
    else if strContains cl "low" then "Low"
    else "Medium"

/-- One line of the STEP-4 loop of `_parse_ai_response`. -/
def lineStep (isAr : Bool) (acc : ScanAcc) (rawLine : String) : ScanAcc :=
  let line := pyStripS rawLine
  if line == "" then acc
  else if reasoningMarker line then
    { acc with
      sec := 1
      reas := if strContains line ":" then acc.reas ++ [pyStripS (afterColon line)]
              else acc.reas }
  else
    let acc1 := if acc.sec == 1 then { acc with reas := acc.reas ++ [line] }
                else acc
    let acc2 := if confMarkerLine line then
                  { acc1 with conf := normalizeConfValue isAr line }
                else acc1
    if refMarker line then
      { acc2 with
        sec := 2
        refs := if strContains line ":" then
                  acc2.refs ++ [pyStripS (afterColon line)]
                else acc2.refs }
    else if acc2.sec == 2 then { acc2 with refs := acc2.refs ++ [line] }
    else acc2

/-- The STEP-4 loop over all lines (initial confidence `'Medium'`). -/
def scanResult (reply : String) : ScanAcc :=
  (pyLines reply).foldl (lineStep (isArabicText reply)) ⟨0, [], [], "Medium"⟩

/-- `result['reasoning']`: `' '.join(reasoning_lines).strip()`. -/
def reasoningOf (reply : String) : String :=
  pyStripS (String.mk (joinSpace ((scanResult reply).reas.map String.toList)))

/-- `result['mind_map_reference']`. -/
def referenceOf (reply : String) : String :=
  pyStripS (String.mk (joinSpace ((scanResult reply).refs.map String.toList)))

example : (scanResult "Tag: X\nConfidence: High").conf = "High" := by decide
example : (scanResult "Confidence: [LOW]").conf = "Low" := by decide
example : (scanResult "Tag: X").conf = "Medium" := by decide
example : (scanResult "Reasoning confidence: High").conf = "Medium" := by decide
example : reasoningOf "Reasoning: customer has billing problem" =
    "customer has billing problem" := by decide

/-! ## `AIAnalyzer._extract_tags_from_reasoning` -/

/-- `['"]` of the reasoning keyword patterns (in the source the class
duplicates the double quote). -/
def clsQuote : RE := RE.cls (fun c => c == sqChar || c == dqChar)

/-- `[^'"]` -/
def clsNotQuote : RE := RE.cls (fun c => !(c == sqChar || c == dqChar))

/-- `(?:tag|tags)\s+['"]([^'"]{10,})['"]` (IGNORECASE) -/
def patKw1 : RE :=
  seqs [RE.alt (istr "tag") (istr "tags"), rplus rws, clsQuote,
        RE.grp (RE.rep clsNotQuote 10 none false), clsQuote]

/-- `['"]([^'"]{10,})['"]\s+(?:tag|tags)` (IGNORECASE) -/
def patKw2 : RE :=
  seqs [clsQuote, RE.grp (RE.rep clsNotQuote 10 none false), clsQuote,
        rplus rws, RE.alt (istr "tag") (istr "tags")]

/-- `(?:tag|tags)\s+(?:named|called|is)\s+['"]([^'"]{10,})['"]` (IGNORECASE) -/
def patKw3 : RE :=
  seqs [RE.alt (istr "tag") (istr "tags"), rplus rws,
        RE.alt (istr "named") (RE.alt (istr "called") (istr "is")), rplus rws,
        clsQuote, RE.grp (RE.rep clsNotQuote 10 none false), clsQuote]

/-- `(?:matching|matches|match|aligns?|corresponds?)` -/
def altMatching : RE :=
  RE.alt (istr "matching") (RE.alt (istr "matches") (RE.alt (istr "match")
    (RE.alt (seqs [istr "align", ropt (ichr 's')])
            (seqs [istr "correspond", ropt (ichr 's')]))))

/-- `(?:matching|...)\s+(?:the\s+)?tag\s+['"]([^'"]{10,})['"]` (IGNORECASE) -/
def patMatch1 : RE :=
  seqs [altMatching, rplus rws, ropt (seqs [istr "the", rplus rws]),
        istr "tag", rplus rws, clsQuote,
        RE.grp (RE.rep clsNotQuote 10 none false), clsQuote]

/-- `(?:matching|...)\s+['"]([^'"]{10,})['"]` (IGNORECASE) -/
def patMatch2 : RE :=
  seqs [altMatching, rplus rws, clsQuote,
        RE.grp (RE.rep clsNotQuote 10 none false), clsQuote]

/-- Priority 1 of `_extract_tags_from_reasoning`: resolve extracted tag
ids, deduplicating by normalized lowercase name.  State: found tags and
the found-normalized set. -/
def reasIdPass (tags : List (String × TagRecord)) (text : String)
    (st : List String × List String) : List String × List String :=
  (extractTagIdsFromText text).foldl (fun st tid =>
    match getTagById tags tid with
    | some name =>
      let nm := pyLowerS (normalizeTagName name)
      if st.2.contains nm then st else (st.1 ++ [name], st.2 ++ [nm])
    | none => st) st

/-- Method 1 of `_extract_tags_from_reasoning`: quoted names, exact match
first (the inner loop only breaks when it appends, so names already
found are skipped), then fuzzy at 0.75. -/
def reasQuotedPass (names : List String) (text : String)
    (st : List String × List String) : List String × List String :=
  (reFindall text.toList patQuoted true).foldl (fun st m =>
    let ms := pyStripL m
    if ms.length < 10 then st
    else
      let nm := pyLowerS (normalizeTagName (String.mk ms))
      if st.2.contains nm then st
      else
        match names.find? (fun t =>
          pyLowerS (normalizeTagName t) == nm && !st.1.contains t) with
        | some t => (st.1 ++ [t], st.2 ++ [nm])
        | none =>
          match fuzzyMatchTag (String.mk ms) names (mkRat 3 4) with
          | (some fm, _) =>
            let fnm := pyLowerS (normalizeTagName fm)
            if st.2.contains fnm then st else (st.1 ++ [fm], st.2 ++ [fnm])
          | (none, _) => st) st

/-- Methods 2 and 3 of `_extract_tags_from_reasoning`: keyword-context
quoted names, fuzzy-matched at 0.75 (appended without re-checking the
found set, as in the source). -/
def reasKeywordPass (names : List String) (text : String) (pats : List RE)
    (st : List String × List String) : List String × List String :=
  pats.foldl (fun st pat =>
    (reFindall text.toList pat true).foldl (fun st m =>
      let ms := pyStripL m
      let nm := pyLowerS (normalizeTagName (String.mk ms))
      if st.2.contains nm then st
      else
        match fuzzyMatchTag (String.mk ms) names (mkRat 3 4) with
        | (some fm, _) =>
          (st.1 ++ [fm], st.2 ++ [pyLowerS (normalizeTagName fm)])
        | (none, _) => st) st) st

/-- `re.search(r'\b' + re.escape(needle) + r'\b', hay)` as a boolean. -/
def boundaryOccurs (needle hay : List Char) : Bool :=
  (reSearch hay (seqs [RE.wordB, seqs (needle.map rchr), RE.wordB]) 0).isSome

/-- The per-name body of Method 4 of `_extract_tags_from_reasoning`:
multi-word names need 70% of their long words present (plus an
always-true self-match score check), single-word names a word-boundary
occurrence. -/
def containStep (reasLower : String) (st : List String × List String)
    (tag : String) : List String × List String :=
  let nt := pyLowerS (normalizeTagName tag)
  if st.2.contains nt then st
  else
    let ws := pyWords nt.toList
    if 2 ≤ ws.length then
      let wordsFound := (ws.filter (fun w =>
        3 < w.length && containsSub reasLower.toList w)).length
      if mkRat (7 * (ws.length : Int)) 10 ≤ mkRat (wordsFound : Int) 1 then
        if mkRat 3 5 < (fuzzyMatchTag tag [tag] (mkRat 0 1)).2 then
          (st.1 ++ [tag], st.2 ++ [nt])
        else st
      else st
    else
      if boundaryOccurs nt.toList reasLower.toList then
        (st.1 ++ [tag], st.2 ++ [nt])
      else st

/-- Method 4 of `_extract_tags_from_reasoning` (the free-text containment
scan): only runs when fewer than two tags were found so far. -/
def reasContainmentPass (names : List String) (reasLower : String)
    (st : List String × List String) : List String × List String :=
  if st.1.length < 2 then names.foldl (containStep reasLower) st else st

/-- The condition under which Method 4 may add a catalog name: at least
two normalized words with the 70% word-containment test passed, or a
single-word (or empty-word) name occurring with word boundaries in the
reasoning text. -/
def fallbackAddCondition (reasLower : String) (t : String) : Prop :=
  let nt := pyLowerS (normalizeTagName t)
  let ws := pyWords nt.toList
  (2 ≤ ws.length ∧
    mkRat (7 * (ws.length : Int)) 10 ≤
      mkRat (((ws.filter (fun w =>
        3 < w.length && containsSub reasLower.toList w)).length : Int)) 1) ∨
  (ws.length < 2 ∧ boundaryOccurs nt.toList reasLower.toList = true)

/-- `AIAnalyzer._extract_tags_from_reasoning`. -/
def extractTagsFromReasoning (tags : List (String × TagRecord))
    (reasoning : String) : List String :=
  let st0 := reasIdPass tags reasoning ([], [])
  let allTags := getAllTags tags
  if allTags.isEmpty then st0.1
  else
    let names := allTags.filterMap (fun p => p.2.tagName)
    let st1 := reasQuotedPass names reasoning st0
    let st2 := reasKeywordPass names reasoning [patKw1, patKw2, patKw3] st1
    let st3 := reasKeywordPass names reasoning [patMatch1, patMatch2] st2
    (reasContainmentPass names (pyLowerS reasoning) st3).1

/-! ## `AIAnalyzer._parse_ai_response` -/

/-- The resolver's structured result (`raw reply` is attached unchanged by
the caller and not part of the parse). -/
structure ParsedResult where
  tags : List String
  confidence : String
  reasoning : String
  mindMapReference : String
deriving DecidableEq, Repr

/-- Resolve every id extracted from `text` and append the unseen names
(the id loops of STEPs 2, 5 and 6). -/
def addIdNames (tags : List (String × TagRecord)) (cur : List String)
    (text : String) : List String :=
  (extractTagIdsFromText text).foldl (fun acc tid =>
    match getTagById tags tid with
    | some name => if acc.contains name then acc else acc ++ [name]
    | none => acc) cur

/-- STEPs 1–3 of `_parse_ai_response`: pattern extraction, id resolution
over the whole reply, validation. -/
def tagsStep3 (tags : List (String × TagRecord)) (reply : String) :
    List String :=
  let extracted := addIdNames tags (extractTagsFromResponse reply) reply
  if extracted.isEmpty then [] else validateAndMatchTags tags extracted

/-- Tags after STEP 5 (ids found in the reference section). -/
def tagsAfterStep5 (tags : List (String × TagRecord)) (reply : String) :
    List String :=
  let t3 := tagsStep3 tags reply
  let ref := referenceOf reply
  if ref == "" then t3 else addIdNames tags t3 ref

/-- Tags after STEP 6 (the reasoning fallback, only when STEPs 1–5 found
nothing and a reasoning section exists). -/
def tagsAfterStep6 (tags : List (String × TagRecord)) (reply : String) :
    List String :=
  let t5 := tagsAfterStep5 tags reply
  let reas := reasoningOf reply
  if t5.isEmpty && !(reas == "") then
    let t6 := addIdNames tags [] reas
    if t6.isEmpty then
      let fr := extractTagsFromReasoning tags reas
      if fr.isEmpty then t6
      else
        let v := validateAndMatchTags tags fr
        if v.isEmpty then t6 else v
    else t6
  else t5

/-- The final validation of `_parse_ai_response`: every surviving tag must
be a `tag_name` of the live catalog. -/
def finalValidate (tags : List (String × TagRecord)) (l : List String) :
    List String :=
  if l.isEmpty then l
  else if (getAllTags tags).isEmpty then []
  else
    l.filter (fun t =>
      ((getAllTags tags).filterMap (fun p => p.2.tagName)).contains t)

/-- `AIAnalyzer._parse_ai_response`. -/
def parseAiResponse (tags : List (String × TagRecord)) (reply : String) :
    ParsedResult :=
  { tags := finalValidate tags (tagsAfterStep6 tags reply),
    confidence := (scanResult reply).conf,
    reasoning := reasoningOf reply,
    mindMapReference := referenceOf reply }

/-! ## The confidence projection of the STEP-4 loop

`deriveConfidence` is the standalone confidence derivation the
specification describes (amended to the code's actual default): the last
line carrying an explicit confidence field wins, lines triggering the
reasoning branch are skipped by its `continue`, and without any such line
the initial `'Medium'` survives. -/

/-- What one line of the STEP-4 loop does to the confidence alone. -/
def confStep (isAr : Bool) (conf : String) (rawLine : String) : String :=
  let line := pyStripS rawLine
  if line == "" then conf
  else if reasoningMarker line then conf
  else if confMarkerLine line then normalizeConfValue isAr line
  else conf

/-- The confidence of a parse, derived directly from the reply text. -/
def deriveConfidence (reply : String) : String :=
  (pyLines reply).foldl (confStep (isArabicText reply)) "Medium"

/-! ## Concrete catalogs and replies used by witnesses and
counterexamples -/

/-- A one-record catalog: `Billing Issue` with id `T0001`. -/
def catBilling : List (String × TagRecord) :=
  [("T0001_Billing Issue_0", ⟨some "T0001", some "Billing Issue"⟩)]

/-- A three-record catalog for the priority claim. -/
def catPriority : List (String × TagRecord) :=
  [("T0001_Billing Issue_0", ⟨some "T0001", some "Billing Issue"⟩),
   ("T0002_Refund Request_1", ⟨some "T0002", some "Refund Request"⟩),
   ("T0003_Payment Error_2", ⟨some "T0003", some "Payment Error"⟩)]

/-- A catalog whose only record has the single-word name `Billing`. -/
def catSingleWord : List (String × TagRecord) :=
  [("T0001_Billing_0", ⟨some "T0001", some "Billing"⟩)]

/-- A catalog with a record whose id normalizes to `T0009`. -/
def catT9 : List (String × TagRecord) :=
  [("T0009_Packages Benefits_0", ⟨some "T0009", some "Packages Benefits"⟩)]

/-- A reply whose only tag-labelled line names `Billing Issue` and which
also contains a quoted string fuzzy-matching `Payment Error`. -/
def replyPriorityGood : String :=
  "Tag: Billing Issue\nAlso \"Payment Erro\" here"

/-- The same reply with an additional, earlier `Tag:` line. -/
def replyPriorityBad : String :=
  "Tag: Refund Request\nTag: Billing Issue\nAlso \"Payment Erro\" here"

/-- A reply whose only content is a reasoning section mentioning
`billing` in free text. -/
def replyReasoningBilling : String :=
  "Reasoning: customer has billing problem"

/-- A catalog with a sheet entry and two records sharing the name
`Dup`. -/
def catDup : List (String × TagRecord) :=
  [("_sheet_Sheet1", ⟨none, none⟩),
   ("T0001_Dup_0", ⟨some "T0001", some "Dup"⟩),
   ("T0002_Dup_1", ⟨some "T0002", some "Dup"⟩)]

/-! # Theorems

Supporting lemmas first, then one theorem per claim (with witnesses and
counterexamples as required). -/

/-- One STEP-4 line changes the confidence exactly as `confStep` says. -/
theorem lineStep_conf (isAr : Bool) (acc : ScanAcc) (l : String) :
    (lineStep isAr acc l).conf = confStep isAr acc.conf l := by
  simp only [lineStep, confStep]
  split_ifs <;> rfl

/-- The confidence of the STEP-4 fold is the fold of `confStep`. -/
theorem foldl_lineStep_conf (isAr : Bool) (lines : List String)
    (acc : ScanAcc) :
    (lines.foldl (lineStep isAr) acc).conf =
      lines.foldl (confStep isAr) acc.conf := by
  induction lines generalizing acc with
  | nil => rfl
  | cons l rest ih => simp only [List.foldl_cons, ih, lineStep_conf]

/-- An explicit confidence value always normalizes to one of the three
labels. -/
theorem confLabel_three_way (c1 c2 : Prop) [Decidable c1] [Decidable c2] :
    (if c1 then "High" else if c2 then "Low" else "Medium") = "High" ∨
      (if c1 then "High" else if c2 then "Low" else "Medium") = "Medium" ∨
      (if c1 then "High" else if c2 then "Low" else "Medium") = "Low" := by
  split_ifs <;> simp

/-- An explicit confidence value always normalizes to one of the three
labels. -/
theorem normalizeConfValue_mem (isAr : Bool) (line : String) :
    normalizeConfValue isAr line = "High" ∨
      normalizeConfValue isAr line = "Medium" ∨
      normalizeConfValue isAr line = "Low" := by
  simp only [normalizeConfValue]
  split
  · exact confLabel_three_way _ _
  · exact confLabel_three_way _ _

/-- `confStep` preserves membership in the three confidence labels. -/
theorem confStep_mem (isAr : Bool) (conf : String) (l : String)
    (h : conf = "High" ∨ conf = "Medium" ∨ conf = "Low") :
    confStep isAr conf l = "High" ∨ confStep isAr conf l = "Medium" ∨
      confStep isAr conf l = "Low" := by
  simp only [confStep]
  split_ifs <;> first
    | exact h
    | exact normalizeConfValue_mem isAr (pyStripS l)

/-- The `confStep` fold stays in the three confidence labels. -/
theorem foldl_confStep_mem (isAr : Bool) (lines : List String)
    (conf : String)
    (h : conf = "High" ∨ conf = "Medium" ∨ conf = "Low") :
    lines.foldl (confStep isAr) conf = "High" ∨
      lines.foldl (confStep isAr) conf = "Medium" ∨
      lines.foldl (confStep isAr) conf = "Low" := by
  induction lines generalizing conf with
  | nil => exact h
  | cons l rest ih =>
    simp only [List.foldl_cons]
    exact ih _ (confStep_mem isAr conf l h)

/-- C1: for every raw reply and every catalog, each name in the `tags`
list of the parse result exists verbatim as the `tag_name` of some record
of the catalog view at resolution time — the final validation of
`_parse_ai_response` filters `tags` through the live catalog's names. -/
theorem c1_tags_exist_in_catalog (tags : List (String × TagRecord))
    (reply : String) (t : String)
    (ht : t ∈ (parseAiResponse tags reply).tags) :
    ∃ p ∈ getAllTags tags, p.2.tagName = some t := by
  have h : t ∈ finalValidate tags (tagsAfterStep6 tags reply) := ht
  unfold finalValidate at h
  split at h
  · next he =>
      rw [List.isEmpty_iff] at he
      rw [he] at h
      cases h
  · split at h
    · cases h
    · rw [List.mem_filter] at h
      have h2 : t ∈ (getAllTags tags).filterMap (fun p => p.2.tagName) := by
        simpa using h.2
      rw [List.mem_filterMap] at h2
      obtain ⟨p, hp, hpt⟩ := h2
      exact ⟨p, hp, hpt⟩

/-- Witness for C1 at a concrete catalog and reply. -/
theorem c1_witness :
    ∃ p ∈ getAllTags catBilling, p.2.tagName = some "Billing Issue" :=
  c1_tags_exist_in_catalog catBilling "Tag: Billing Issue" "Billing Issue"
    (by decide)

/-- C2 counterexample: in the reply `"Tag: Billing Issue"` no line carries
an explicit confidence field, the explicit-field strategy does produce a
tag, and yet the confidence is `'Medium'`, not the `'High'` the claim
predicts — the code never raises the default based on which strategy
fired. -/
theorem c2_counterexample :
    ((pyLines "Tag: Billing Issue").all
        (fun l => !confMarkerLine (pyStripS l)) = true) ∧
    (parseAiResponse catBilling "Tag: Billing Issue").tags =
      ["Billing Issue"] ∧
    (parseAiResponse catBilling "Tag: Billing Issue").confidence = "Medium" ∧
    (parseAiResponse catBilling "Tag: Billing Issue").confidence ≠ "High" := by
  decide

/-- C2 (amended): the parser's confidence is exactly `deriveConfidence`:
if a line carries an explicit confidence field its normalized value (last
such line wins, including the Arabic phrasings) is returned, and otherwise
the initial default `'Medium'` survives regardless of which extraction
strategy produced tags; the result is always one of High/Medium/Low and
is independent of the catalog. -/
theorem c2_confidence_derivation (tags : List (String × TagRecord))
    (reply : String) :
    (parseAiResponse tags reply).confidence = deriveConfidence reply ∧
    (deriveConfidence reply = "High" ∨ deriveConfidence reply = "Medium" ∨
      deriveConfidence reply = "Low") := by
  constructor
  · show (scanResult reply).conf = _
    unfold scanResult deriveConfidence
    exact foldl_lineStep_conf _ _ _
  · exact foldl_confStep_mem _ _ _ (Or.inr (Or.inl rfl))

/-- Witness for C2 (amended) at a concrete catalog and reply. -/
theorem c2_witness :
    (parseAiResponse catBilling "Tag: X\nConfidence: High").confidence =
      deriveConfidence "Tag: X\nConfidence: High" ∧
    deriveConfidence "Tag: X\nConfidence: High" = "High" :=
  ⟨(c2_confidence_derivation catBilling "Tag: X\nConfidence: High").1,
   by decide⟩

/-- C3 counterexample: on the reply `"I cannot help with this"` the parser
does return normally with empty `tags`, but the confidence is the initial
default `'Medium'`, not the `'Low'` the claim states. -/
theorem c3_counterexample :
    (parseAiResponse catBilling "I cannot help with this").tags = [] ∧
    (parseAiResponse catBilling "I cannot help with this").confidence =
      "Medium" ∧
    (parseAiResponse catBilling "I cannot help with this").confidence ≠
      "Low" := by
  decide

/-- C3 (amended): for every catalog, the reply `"I cannot help with
this"` (no tag-id-shaped substring, no label line, no quoted or contained
catalog name) parses to the empty `tags` list with confidence `'Medium'`
— a normal result, not an exception. -/
theorem c3_no_tag_content (tags : List (String × TagRecord)) :
    parseAiResponse tags "I cannot help with this" =
      ⟨[], "Medium", "", ""⟩ := by
  have h1 : extractTagsFromResponse "I cannot help with this" = [] := by
    decide
  have h2 : extractTagIdsFromText "I cannot help with this" = [] := by decide
  have h3 : scanResult "I cannot help with this" = ⟨0, [], [], "Medium"⟩ := by
    decide
  simp [parseAiResponse, tagsAfterStep6, tagsAfterStep5, tagsStep3,
        addIdNames, finalValidate, reasoningOf, referenceOf, h1, h2, h3,
        joinSpace, pyStripS, pyStripL]

/-- Witness for C3 (amended) at a concrete catalog. -/
theorem c3_witness :
    parseAiResponse catBilling "I cannot help with this" =
      ⟨[], "Medium", "", ""⟩ :=
  c3_no_tag_content catBilling

/-- C4 counterexample: the catalog holds `Billing Issue` and a distinct
record `Payment Error` fuzzy-matched by the quoted string `"Payment
Erro"`; the reply contains the line `Tag: Billing Issue` and that quoted
string — yet the first returned tag is `Refund Request`, because an
earlier `Tag:` line is extracted first and ties at score 1.0. -/
theorem c4_counterexample :
    strContains replyPriorityBad "Tag: Billing Issue" = true ∧
    ((getAllTags catPriority).filterMap (fun p => p.2.tagName)).contains
      "Billing Issue" = true ∧
    (fuzzyMatchTag "Payment Erro"
      ((getAllTags catPriority).filterMap (fun p => p.2.tagName))
      (mkRat 3 4)).1 = some "Payment Error" ∧
    strContains replyPriorityBad "\"Payment Erro\"" = true ∧
    (parseAiResponse catPriority replyPriorityBad).tags.head? =
      some "Refund Request" := by
  decide

/-- C4 (amended): when the `Tag: Billing Issue` line is the reply's only
explicit tag-labelled line, explicit-field extraction does take priority
over the quoted-string match: the first returned tag is `Billing Issue`
(proved at the representative instance). -/
theorem c4_explicit_field_priority :
    (parseAiResponse catPriority replyPriorityGood).tags =
      ["Billing Issue", "Payment Error"] ∧
    (parseAiResponse catPriority replyPriorityGood).tags.head? =
      some "Billing Issue" := by
  decide

/-- C5: for a catalog record with id normalizing to `T0009`, the
identifier extractor yields `["T0009"]` on each alternate spelling `t9`,
`T009`, `(T9)`, `tag T9` just as on the canonical `T0009`, so id lookup
resolves every spelling to the same catalog name. -/
theorem c5_id_spellings (tags : List (String × TagRecord)) (name : String)
    (h : getTagById tags "T0009" = some name) :
    ∀ s ∈ (["t9", "T009", "(T9)", "tag T9"] : List String),
      extractTagIdsFromText s = extractTagIdsFromText "T0009" ∧
      ((extractTagIdsFromText s).head?.bind (getTagById tags)) = some name := by
  have key : ∀ s : String, extractTagIdsFromText s = ["T0009"] →
      ((extractTagIdsFromText s).head?.bind (getTagById tags)) = some name := by
    intro s hs2
    rw [hs2]
    simpa using h
  intro s hs
  fin_cases hs <;> exact ⟨by decide, key _ (by decide)⟩

/-- Witness for C5 at a concrete catalog. -/
theorem c5_witness :
    extractTagIdsFromText "t9" = extractTagIdsFromText "T0009" ∧
    ((extractTagIdsFromText "t9").head?.bind (getTagById catT9)) =
      some "Packages Benefits" :=
  c5_id_spellings catT9 "Packages Benefits" (by decide) "t9" (by decide)

/-- C6 counterexample: `XYZ` has a non-empty remainder that `int()`
rejects, yet normalization returns `some "T0XYZ"` (the zero-padded
fallback), not nothing. -/
theorem c6_counterexample :
    tagIdRemainder "XYZ" ≠ [] ∧
    pyIntParse (tagIdRemainder "XYZ") = none ∧
    normalizeTagId "XYZ" = some "T0XYZ" := by
  decide

/-- C6 (amended): on a non-empty remainder that fails integer parsing,
normalization does not raise but returns the fallback id
`"T" + remainder.zfill(4)` — not nothing. -/
theorem c6_unparseable_fallback (s : String)
    (h1 : tagIdRemainder s ≠ []) (h2 : pyIntParse (tagIdRemainder s) = none) :
    normalizeTagId s = some (String.mk ('T' :: zfill4 (tagIdRemainder s))) := by
  have hs : (s.isEmpty) = false := by
    rcases hbe : s.isEmpty with _ | _
    · rfl
    · exfalso
      apply h1
      have hse : s = "" := by simpa [String.isEmpty_iff] using hbe
      subst hse
      decide
  have hr : (tagIdRemainder s).isEmpty = false := by
    cases hh : tagIdRemainder s with
    | nil => exact absurd hh h1
    | cons a l => simp
  simp [normalizeTagId, hs, hr, h2]

/-- Witness for C6 (amended) at a concrete input. -/
theorem c6_witness :
    normalizeTagId "AB-CD" =
      some (String.mk ('T' :: zfill4 (tagIdRemainder "AB-CD"))) :=
  c6_unparseable_fallback "AB-CD" (by decide) (by decide)

/-- One Method-4 step only adds a name satisfying `fallbackAddCondition`. -/
theorem containStep_mem (reasLower : String)
    (st : List String × List String) (tag t : String)
    (h : t ∈ (containStep reasLower st tag).1) :
    t ∈ st.1 ∨ fallbackAddCondition reasLower t := by
  simp only [containStep] at h
  split_ifs at h with h1 h2 h3 h4 h5
  · exact Or.inl h
  · rcases List.mem_append.mp h with hl | hr
    · exact Or.inl hl
    · have ht : t = tag := by simpa using hr
      subst ht
      exact Or.inr (Or.inl ⟨h2, h3⟩)
  · exact Or.inl h
  · exact Or.inl h
  · rcases List.mem_append.mp h with hl | hr
    · exact Or.inl hl
    · have ht : t = tag := by simpa using hr
      subst ht
      exact Or.inr (Or.inr ⟨by omega, h5⟩)
  · exact Or.inl h

/-- The Method-4 fold only adds names satisfying `fallbackAddCondition`. -/
theorem containFold_mem (reasLower : String) :
    ∀ (names : List String) (st : List String × List String) (t : String),
      t ∈ (names.foldl (containStep reasLower) st).1 →
      t ∈ st.1 ∨ fallbackAddCondition reasLower t := by
  intro names
  induction names with
  | nil => intro st t h; exact Or.inl h
  | cons n rest ih =>
    intro st t h
    rcases ih (containStep reasLower st n) t h with h2 | h2
    · exact containStep_mem reasLower st n t h2
    · exact Or.inr h2

/-- C8 (amended): the free-text containment fallback runs only when the
earlier strategies found no tag (conjunct 1: with tags present after STEP
5 the result is just their final validation), and Method 4's
word-overlap path only adds names whose normalized form has at least two
words — but, contrary to the original claim, single-word catalog names
are also added when they occur as whole words in the reasoning text
(conjunct 2). -/
theorem c8_containment_fallback :
    (∀ (tags : List (String × TagRecord)) (reply : String),
        tagsAfterStep5 tags reply ≠ [] →
        (parseAiResponse tags reply).tags =
          finalValidate tags (tagsAfterStep5 tags reply)) ∧
    (∀ (names : List String) (reasLower : String)
        (st : List String × List String) (t : String),
        t ∈ (reasContainmentPass names reasLower st).1 →
        t ∈ st.1 ∨ fallbackAddCondition reasLower t) := by
  constructor
  · intro tags reply h5
    show finalValidate tags (tagsAfterStep6 tags reply) = _
    have he : (tagsAfterStep5 tags reply).isEmpty = false := by
      cases hh : tagsAfterStep5 tags reply with
      | nil => exact absurd hh h5
      | cons a l => rfl
    have h6 : tagsAfterStep6 tags reply = tagsAfterStep5 tags reply := by
      simp [tagsAfterStep6, he]
    rw [h6]
  · intro names reasLower st t h
    simp only [reasContainmentPass] at h
    split_ifs at h with h1
    · exact containFold_mem reasLower names st t h
    · exact Or.inl h

/-- C8 counterexample: with the single-word catalog name `Billing` and
reply `"Reasoning: customer has billing problem"`, the strategies before
the fallback find nothing, yet the parse result contains `Billing` — a
single-word name added by the containment fallback, which the original
claim rules out. -/
theorem c8_counterexample :
    tagsAfterStep5 catSingleWord replyReasoningBilling = [] ∧
    (parseAiResponse catSingleWord replyReasoningBilling).tags =
      ["Billing"] ∧
    (pyWords (pyLowerS (normalizeTagName "Billing")).toList).length = 1 := by
  decide

/-- Witness for C8 (amended), applying both conjuncts at concrete
inputs. -/
theorem c8_witness :
    (parseAiResponse catPriority replyPriorityGood).tags =
      finalValidate catPriority (tagsAfterStep5 catPriority replyPriorityGood) ∧
    ("Billing" ∈ (([] : List String)) ∨
      fallbackAddCondition "customer has billing problem" "Billing") :=
  ⟨c8_containment_fallback.1 catPriority replyPriorityGood (by decide),
   c8_containment_fallback.2 ["Billing"] "customer has billing problem"
     ([], []) "Billing" (by decide)⟩

/-- The names of the `getAllTagsAux` result are pairwise distinct. -/
theorem getAllTagsAux_names_nodup :
    ∀ (l acc : List (String × TagRecord)),
      (acc.map Prod.fst).Nodup → ((getAllTagsAux acc l).map Prod.fst).Nodup := by
  intro l
  induction l with
  | nil => intro acc h; exact h
  | cons kv rest ih =>
    intro acc h
    obtain ⟨k, v⟩ := kv
    by_cases hsheet : isSheetKey k
    · simpa [getAllTagsAux, hsheet] using ih acc h
    · by_cases hany : acc.any (fun p => p.1 == v.tagName.getD k)
      · simpa [getAllTagsAux, hsheet, hany] using ih acc h
      · have hnotin : v.tagName.getD k ∉ acc.map Prod.fst := by
          intro hmem
          rw [List.mem_map] at hmem
          obtain ⟨p, hp, hp2⟩ := hmem
          exact hany (List.any_eq_true.mpr ⟨p, hp, by simpa using hp2⟩)
        have h2 : ((acc ++ [(v.tagName.getD k, v)]).map Prod.fst).Nodup := by
          rw [List.map_append]
          refine List.Nodup.append h (by simp) ?_
          intro x hx hx2
          simp only [List.map_cons, List.map_nil, List.mem_singleton] at hx2
          subst hx2
          exact hnotin hx
        simpa [getAllTagsAux, hsheet, hany] using
          ih (acc ++ [(v.tagName.getD k, v)]) h2

/-- Membership characterization of `getAllTagsAux`: an entry is either
already accumulated, or (when the accumulator does not know the name yet)
the first non-sheet record of the remaining list with that name. -/
theorem getAllTagsAux_mem :
    ∀ (l acc : List (String × TagRecord)) (n : String) (r : TagRecord),
      (n, r) ∈ getAllTagsAux acc l ↔
        (n, r) ∈ acc ∨
        (acc.any (fun p => p.1 == n) = false ∧
          ∃ k, ((l.filter (fun kv => !isSheetKey kv.1)).find?
              (fun kv => kv.2.tagName.getD kv.1 == n)) = some (k, r)) := by
  intro l
  induction l with
  | nil => intro acc n r; simp [getAllTagsAux]
  | cons kv rest ih =>
    intro acc n r
    obtain ⟨k, v⟩ := kv
    by_cases hsheet : isSheetKey k
    · simpa [getAllTagsAux, hsheet] using ih acc n r
    · have hfilter : ((k, v) :: rest).filter (fun kv => !isSheetKey kv.1) =
          (k, v) :: rest.filter (fun kv => !isSheetKey kv.1) := by
        simp [List.filter_cons, hsheet]
      by_cases hmn : v.tagName.getD k = n
      · have hfind : ((((k, v) :: rest).filter
            (fun kv => !isSheetKey kv.1)).find?
            (fun kv => kv.2.tagName.getD kv.1 == n)) = some (k, v) := by
          rw [hfilter]
          exact List.find?_cons_of_pos _ (by simp [hmn])
        by_cases hany : acc.any (fun p => p.1 == v.tagName.getD k)
        · rw [show getAllTagsAux acc ((k, v) :: rest) = getAllTagsAux acc rest
              by simp [getAllTagsAux, hsheet, hany]]
          rw [ih acc n r]
          have hanyn : acc.any (fun p => p.1 == n) = true := by
            rw [← hmn]; exact hany
          simp [hanyn]
        · rw [show getAllTagsAux acc ((k, v) :: rest) =
                getAllTagsAux (acc ++ [(v.tagName.getD k, v)]) rest
              by simp [getAllTagsAux, hsheet, hany]]
          rw [ih (acc ++ [(v.tagName.getD k, v)]) n r, hfind]
          have hanyn : acc.any (fun p => p.1 == n) = false := by
            rw [← hmn]
            exact Bool.eq_false_iff.mpr hany
          have happ : (acc ++ [(v.tagName.getD k, v)]).any
              (fun p => p.1 == n) = true := by
            simp [List.any_append, hmn]
          constructor
          · rintro (hm | ⟨hfalse, -⟩)
            · rcases List.mem_append.mp hm with hl | hr
              · exact Or.inl hl
              · have heq : (n, r) = (v.tagName.getD k, v) := by simpa using hr
                have hv : r = v := ((Prod.mk.injEq _ _ _ _).mp heq).2
                exact Or.inr ⟨hanyn, k, by rw [hv]⟩
            · rw [happ] at hfalse; cases hfalse
          · rintro (hm | ⟨-, k', hk⟩)
            · exact Or.inl (List.mem_append_left _ hm)
            · have hkv : (k, v) = (k', r) := by injection hk
              have hv : v = r := ((Prod.mk.injEq _ _ _ _).mp hkv).2
              refine Or.inl (List.mem_append_right _ ?_)
              simp [← hv, hmn]
      · have hfind : ((((k, v) :: rest).filter
            (fun kv => !isSheetKey kv.1)).find?
            (fun kv => kv.2.tagName.getD kv.1 == n)) =
            ((rest.filter (fun kv => !isSheetKey kv.1)).find?
              (fun kv => kv.2.tagName.getD kv.1 == n)) := by
          rw [hfilter]
          exact List.find?_cons_of_neg _ (by simp [hmn])
        by_cases hany : acc.any (fun p => p.1 == v.tagName.getD k)
        · rw [show getAllTagsAux acc ((k, v) :: rest) = getAllTagsAux acc rest
              by simp [getAllTagsAux, hsheet, hany]]
          rw [ih acc n r, hfind]
        · rw [show getAllTagsAux acc ((k, v) :: rest) =
                getAllTagsAux (acc ++ [(v.tagName.getD k, v)]) rest
              by simp [getAllTagsAux, hsheet, hany]]
          rw [ih (acc ++ [(v.tagName.getD k, v)]) n r, hfind]
          have happ : (acc ++ [(v.tagName.getD k, v)]).any
              (fun p => p.1 == n) = acc.any (fun p => p.1 == n) := by
            simp [List.any_append, hmn]
          rw [happ]
          constructor
          · rintro (hm | h2)
            · rcases List.mem_append.mp hm with hl | hr
              · exact Or.inl hl
              · exfalso
                have heq : (n, r) = (v.tagName.getD k, v) := by simpa using hr
                exact hmn ((Prod.mk.injEq _ _ _ _).mp heq).1.symm
            · exact Or.inr h2
          · rintro (hm | h2)
            · exact Or.inl (List.mem_append_left _ hm)
            · exact Or.inr h2

/-- C9: the `get_all_tags` view holds at most one record per distinct tag
name (its names are pairwise distinct), and the record kept for a name is
exactly the first-encountered non-sheet record bearing it. -/
theorem c9_first_record_per_name (tags : List (String × TagRecord)) :
    ((getAllTags tags).map Prod.fst).Nodup ∧
    ∀ (n : String) (r : TagRecord),
      (n, r) ∈ getAllTags tags ↔
        ∃ k, ((tags.filter (fun kv => !isSheetKey kv.1)).find?
            (fun kv => kv.2.tagName.getD kv.1 == n)) = some (k, r) := by
  constructor
  · exact getAllTagsAux_names_nodup tags [] (by simp)
  · intro n r
    rw [getAllTags, getAllTagsAux_mem]
    simp

/-- Witness for C9 at a catalog with a duplicated name: only the first
`Dup` record is kept. -/
theorem c9_witness :
    (("Dup", (⟨some "T0001", some "Dup"⟩ : TagRecord)) ∈ getAllTags catDup ↔
      ∃ k, ((catDup.filter (fun kv => !isSheetKey kv.1)).find?
          (fun kv => kv.2.tagName.getD kv.1 == "Dup")) =
        some (k, (⟨some "T0001", some "Dup"⟩ : TagRecord))) ∧
    getAllTags catDup =
      [("Dup", ⟨some "T0001", some "Dup"⟩)] :=
  ⟨(c9_first_record_per_name catDup).2 "Dup" ⟨some "T0001", some "Dup"⟩,
   by decide⟩

/-- `pyLowerS` maps only the empty string to the empty string. -/
theorem pyLowerS_eq_empty (s : String) : pyLowerS s = "" ↔ s = "" := by
  constructor
  · intro h
    have h2 := congrArg String.data h
    simp only [pyLowerS] at h2
    cases s with
    | mk data =>
      cases data with
      | nil => rfl
      | cons c cs => simp at h2
  · intro h
    subst h
    rfl

/-- The SequenceMatcher ratio of the empty string against a non-empty
string is 0 (no matching blocks). -/
theorem smSimilarity_nil_left (b : List Char) (hb : b ≠ []) :
    smSimilarity [] b = 0 := by
  cases b with
  | nil => exact absurd rfl hb
  | cons c cs =>
    show smSimilarity [] (c :: cs) = 0
    have hm : smMatchTotal [] (c :: cs)
        ((List.length ([] : List Char)) + (c :: cs).length + 1) 0
        (List.length ([] : List Char)) 0 (c :: cs).length = 0 := rfl
    unfold smSimilarity
    rw [hm]
    simp

/-- The empty needle is contained in every haystack. -/
theorem containsSub_nil_needle (hay : List Char) :
    containsSub hay [] = true := by
  rw [containsSub.eq_def]
  simp

/-- Under the C10 hypotheses each catalog name scores exactly 0.9: the
ratio against the empty normalized candidate is 0, equality fails, and
the substring-containment bonus applies. -/
theorem fuzzySim_empty_candidate (c n : String) (hcn : normalizeTagName c = "")
    (hn : normalizeTagName n ≠ "") : fuzzySim c n = mkRat 9 10 := by
  have hne : pyLowerS (normalizeTagName c) = "" := by rw [hcn]; rfl
  have hnt : pyLowerS (normalizeTagName n) ≠ "" := fun h =>
    hn ((pyLowerS_eq_empty _).mp h)
  have hntl : (pyLowerS (normalizeTagName n)).toList ≠ [] := by
    intro h
    apply hnt
    cases hx : pyLowerS (normalizeTagName n) with
    | mk data => rw [hx] at h; cases data <;> simp_all [String.toList]
  simp only [fuzzySim, hne]
  have hbeq : (("" : String) == pyLowerS (normalizeTagName n)) = false :=
    beq_eq_false_iff_ne.mpr (fun h => hnt h.symm)
  rw [hbeq]
  have hcont : containsSub (pyLowerS (normalizeTagName n)).toList
      ("" : String).toList = true := containsSub_nil_needle _
  rw [hcont]
  have hsm : smSimilarity ("" : String).toList
      (pyLowerS (normalizeTagName n)).toList = 0 :=
    smSimilarity_nil_left _ hntl
  simp only [Bool.true_or, if_true, hsm]
  have h0 : (if (false = true) then (1 : ℚ) else 0) = 0 := by simp
  rw [h0, if_pos (by decide : (0 : ℚ) ≤ mkRat 9 10)]

/-- Folding `fuzzyStep` from an accumulator that already scores 0.9 over
names that all score 0.9 changes nothing (the update is strictly
greater-than). -/
theorem fuzzyStep_fold_const (c : String) :
    ∀ (l : List String) (m : Option String × ℚ), m.2 = mkRat 9 10 →
      (∀ n ∈ l, fuzzySim c n = mkRat 9 10) → l.foldl (fuzzyStep c) m = m := by
  intro l
  induction l with
  | nil => intro m _ _; rfl
  | cons x xs ih =>
    intro m hm hx
    have hstep : fuzzyStep c m x = m := by
      unfold fuzzyStep
      rw [hx x (by simp), hm]
      rw [if_neg (by simp)]
    rw [List.foldl_cons, hstep]
    exact ih m hm (fun n hn => hx n (List.mem_cons_of_mem _ hn))

/-- C10 counterexample: for the candidate `tag:` (which normalizes to the
empty string) and the catalog names `Billing Issue`, `()`, the fuzzy
matcher returns the second name `()` with score 1.0 — not the first name
in iteration order, because a name that itself normalizes to empty takes
the exact-equality score 1.0 over the containment score 0.9. -/
theorem c10_counterexample :
    normalizeTagName "tag:" = "" ∧
    normalizeTagName "()" = "" ∧
    fuzzyMatchTag "tag:" ["Billing Issue", "()"] (mkRat 3 4) =
      (some "()", 1) ∧
    (fuzzyMatchTag "tag:" ["Billing Issue", "()"] (mkRat 3 4)).1 ≠
      some "Billing Issue" := by
  decide

/-- C10 (amended): for a non-empty candidate whose normalized form is
empty and a non-empty catalog none of whose names normalizes to empty,
every name receives similarity exactly 0.9 via the containment rule, and
for any threshold at or below 0.9 the matcher returns the first catalog
name in iteration order with score 0.9. -/
theorem c10_empty_candidate_first (c n0 : String) (rest : List String)
    (θ : ℚ) (hc : c ≠ "") (hcn : normalizeTagName c = "")
    (hnames : ∀ n ∈ n0 :: rest, normalizeTagName n ≠ "")
    (hθ : θ ≤ mkRat 9 10) :
    (∀ n ∈ n0 :: rest, fuzzySim c n = mkRat 9 10) ∧
    fuzzyMatchTag c (n0 :: rest) θ = (some n0, mkRat 9 10) := by
  have hsim : ∀ n ∈ n0 :: rest, fuzzySim c n = mkRat 9 10 := fun n hn =>
    fuzzySim_empty_candidate c n hcn (hnames n hn)
  refine ⟨hsim, ?_⟩
  unfold fuzzyMatchTag
  have h1 : (c.isEmpty || (n0 :: rest).isEmpty) = false := by
    have : c.isEmpty = false := by
      rcases hbe : c.isEmpty with _ | _
      · rfl
      · exact absurd (by simpa [String.isEmpty_iff] using hbe) hc
    simp [this]
  rw [h1]
  have hstep0 : fuzzyStep c ((none : Option String), (0 : ℚ)) n0 =
      (some n0, mkRat 9 10) := by
    unfold fuzzyStep
    rw [hsim n0 (by simp)]
    rw [if_pos (by decide : mkRat 9 10 > (0 : ℚ))]
  have hfold : (n0 :: rest).foldl (fuzzyStep c)
      ((none : Option String), (0 : ℚ)) = (some n0, mkRat 9 10) := by
    rw [List.foldl_cons, hstep0]
    exact fuzzyStep_fold_const c rest _ rfl
      (fun n hn => hsim n (List.mem_cons_of_mem _ hn))
  simp [h1, hfold, hθ]

/-- Witness for C10 (amended) at a concrete candidate and catalog. -/
theorem c10_witness :
    (∀ n ∈ (["Billing Issue"] : List String),
      fuzzySim "tag:" n = mkRat 9 10) ∧
    fuzzyMatchTag "tag:" ["Billing Issue"] (mkRat 3 4) =
      (some "Billing Issue", mkRat 9 10) :=
  c10_empty_candidate_first "tag:" "Billing Issue" [] (mkRat 3 4)
    (by decide) (by decide) (by decide) (by decide)

/-- `pyUpper` is idempotent: its image contains no lowercase letters. -/
theorem pyUpper_idem (c : Char) : pyUpper (pyUpper c) = pyUpper c := by
  rcases hfind : lowerUpperTable.find? (fun p => p.1 == c) with _ | p
  · simp [pyUpper, hfind]
  · have hp : p ∈ lowerUpperTable := List.mem_of_find?_eq_some hfind
    have h2 : pyUpper c = p.2 := by simp [pyUpper, hfind]
    rw [h2]
    fin_cases hp <;> decide

/-- A list of word characters fixed by `pyUpper` survives the cleaning of
`_normalize_tag_id` unchanged. -/
theorem cleaned_fixed (l : List Char)
    (h : ∀ c ∈ l, isWordChar c = true ∧ pyUpper c = c) :
    cleanedTagId (String.mk l) = l := by
  show (l.map pyUpper).filter isWordChar = l
  induction l with
  | nil => rfl
  | cons c cs ih =>
    obtain ⟨hw, hu⟩ := h c (by simp)
    simp only [List.map_cons, List.filter_cons, hu, hw, if_true]
    rw [ih (fun x hx => h x (List.mem_cons_of_mem _ hx))]

/-- Every character of a cleaned tag id is a word character fixed by
`pyUpper`. -/
theorem mem_cleaned (s : String) (c : Char) (hc : c ∈ cleanedTagId s) :
    isWordChar c = true ∧ pyUpper c = c := by
  unfold cleanedTagId at hc
  rw [List.mem_filter] at hc
  obtain ⟨hmem, hw⟩ := hc
  rw [List.mem_map] at hmem
  obtain ⟨x, -, hx⟩ := hmem
  exact ⟨hw, by rw [← hx]; exact pyUpper_idem x⟩

/-- Every character of the remainder is a word character fixed by
`pyUpper`. -/
theorem mem_remainder (s : String) (c : Char) (hc : c ∈ tagIdRemainder s) :
    isWordChar c = true ∧ pyUpper c = c := by
  simp only [tagIdRemainder] at hc
  split at hc
  · exact mem_cleaned s c (List.mem_of_mem_tail hc)
  · exact mem_cleaned s c hc

/-- The decimal digit characters. -/
theorem digitChar10_mem (d : Nat) (hd : d < 10) :
    digitChar10 d ∈ ['0', '1', '2', '3', '4', '5', '6', '7', '8', '9'] := by
  interval_cases d <;> decide

/-- Digit-character facts used below. -/
theorem digit_facts (c : Char)
    (h : c ∈ ['0', '1', '2', '3', '4', '5', '6', '7', '8', '9']) :
    c.isDigit = true ∧ isWordChar c = true ∧ pyUpper c = c ∧
      (c == Char.ofNat 95) = false := by
  fin_cases h <;> decide

/-- `natDigitsAux` with enough fuel is non-empty and consists of decimal
digit characters. -/
theorem natDigitsAux_mem :
    ∀ (fuel n : Nat), n < fuel →
      natDigitsAux fuel n ≠ [] ∧
      ∀ c ∈ natDigitsAux fuel n,
        c ∈ ['0', '1', '2', '3', '4', '5', '6', '7', '8', '9'] := by
  intro fuel
  induction fuel with
  | zero => intro n h; omega
  | succ f ih =>
    intro n h
    rw [natDigitsAux]
    split_ifs with h10
    · refine ⟨by simp, ?_⟩
      intro c hc
      rw [List.mem_singleton] at hc
      rw [hc]
      exact digitChar10_mem n h10
    · have hlt : n / 10 < n := Nat.div_lt_self (by omega) (by omega)
      have hdiv : n / 10 < f := by omega
      obtain ⟨hne, hmem⟩ := ih (n / 10) hdiv
      refine ⟨by simp [hne], ?_⟩
      intro c hc
      rw [List.mem_append] at hc
      rcases hc with hcl | hcr
      · exact hmem c hcl
      · rw [List.mem_singleton] at hcr
        rw [hcr]
        exact digitChar10_mem (n % 10) (Nat.mod_lt _ (by omega))

/-- Leading zero characters do not change the decimal value. -/
theorem digitsVal_replicate_zero (k : Nat) (l : List Char) :
    digitsVal (List.replicate k '0' ++ l) = digitsVal l := by
  induction k with
  | zero => rfl
  | succ m ih =>
    show digitsVal ('0' :: (List.replicate m '0' ++ l)) = digitsVal l
    simpa [digitsVal, List.foldl_cons] using ih

/-- `natDigitsAux` renders the decimal value it was given. -/
theorem digitsVal_natDigitsAux :
    ∀ (fuel n : Nat), n < fuel → digitsVal (natDigitsAux fuel n) = n := by
  intro fuel
  induction fuel with
  | zero => intro n h; omega
  | succ f ih =>
    intro n h
    rw [natDigitsAux]
    split_ifs with h10
    · interval_cases n <;> decide
    · have hlt : n / 10 < n := Nat.div_lt_self (by omega) (by omega)
      have hdiv : n / 10 < f := by omega
      have hval : (digitChar10 (n % 10)).toNat - 48 = n % 10 := by
        have hm : n % 10 < 10 := Nat.mod_lt _ (by omega)
        generalize hgen : n % 10 = m at *
        interval_cases m <;> decide
      rw [show digitsVal (natDigitsAux f (n / 10) ++ [digitChar10 (n % 10)]) =
            10 * digitsVal (natDigitsAux f (n / 10)) +
              ((digitChar10 (n % 10)).toNat - 48)
          from by simp [digitsVal, List.foldl_append]]
      rw [ih (n / 10) hdiv, hval]
      omega

/-- An all-digit run continues a digit part. -/
theorem digitpartAux_of_digits (l : List Char)
    (h : ∀ c ∈ l, c.isDigit = true ∧ (c == Char.ofNat 95) = false) :
    digitpartAux l = true := by
  induction l with
  | nil => rfl
  | cons c cs ih =>
    obtain ⟨hd, hu⟩ := h c (by simp)
    rw [digitpartAux.eq_def]
    simp only [hu, Bool.false_eq_true, if_false, hd, Bool.true_and]
    exact ih (fun x hx => h x (List.mem_cons_of_mem _ hx))

/-- A non-empty all-digit list is accepted by `int()`. -/
theorem isDigitpart_of_digits (l : List Char) (hne : l ≠ [])
    (h : ∀ c ∈ l, c.isDigit = true ∧ (c == Char.ofNat 95) = false) :
    isDigitpart l = true := by
  cases l with
  | nil => exact absurd rfl hne
  | cons c cs =>
    rw [isDigitpart]
    obtain ⟨hd, -⟩ := h c (by simp)
    simp only [hd, Bool.true_and]
    exact digitpartAux_of_digits cs (fun x hx => h x (List.mem_cons_of_mem _ hx))

/-- Every character of `pad04 n` is a decimal digit. -/
theorem pad04_mem (n : Nat) (c : Char) (hc : c ∈ pad04 n) :
    c ∈ ['0', '1', '2', '3', '4', '5', '6', '7', '8', '9'] := by
  unfold pad04 zfill4 at hc
  rw [List.mem_append] at hc
  rcases hc with h | h
  · rw [List.eq_of_mem_replicate h]; decide
  · exact (natDigitsAux_mem (n + 1) n (by omega)).2 c h

/-- `int()` parses `f"{n:04d}"` back to `n`. -/
theorem pyIntParse_pad04 (n : Nat) : pyIntParse (pad04 n) = some n := by
  have hmem : ∀ c ∈ pad04 n, c.isDigit = true ∧ (c == Char.ofNat 95) = false :=
    fun c hc => ⟨(digit_facts c (pad04_mem n c hc)).1,
                 (digit_facts c (pad04_mem n c hc)).2.2.2⟩
  have hne : pad04 n ≠ [] := by
    unfold pad04 zfill4
    intro hnil
    rcases List.append_eq_nil.mp hnil with ⟨-, h2⟩
    exact (natDigitsAux_mem (n + 1) n (by omega)).1 h2
  have hpart : isDigitpart (pad04 n) = true := isDigitpart_of_digits _ hne hmem
  have hfilter : (pad04 n).filter (fun c => c != Char.ofNat 95) = pad04 n := by
    rw [List.filter_eq_self]
    intro c hc
    simpa using (hmem c hc).2
  unfold pyIntParse
  rw [hpart, if_pos rfl, hfilter]
  show some (digitsVal (zfill4 (natDigits n))) = some n
  unfold zfill4 natDigits
  rw [digitsVal_replicate_zero, digitsVal_natDigitsAux (n + 1) n (by omega)]

/-- A string built from a non-empty character list is non-empty. -/
theorem mk_cons_isEmpty (c : Char) (l : List Char) :
    (String.mk (c :: l)).isEmpty = false := by
  rcases hbe : (String.mk (c :: l)).isEmpty with _ | _
  · rfl
  · exfalso
    have h2 : String.mk (c :: l) = "" := by
      simpa [String.isEmpty_iff] using hbe
    have h3 := congrArg String.data h2
    simp at h3

/-- `f"{n:04d}"` is never empty. -/
theorem pad04_ne_nil (n : Nat) : pad04 n ≠ [] := by
  unfold pad04 zfill4
  intro hnil
  rcases List.append_eq_nil.mp hnil with ⟨-, h2⟩
  exact (natDigitsAux_mem (n + 1) n (by omega)).1 h2

/-- Zero-filling an already zero-filled list changes nothing. -/
theorem zfill4_idem (l : List Char) : zfill4 (zfill4 l) = zfill4 l := by
  unfold zfill4
  have h4 : 4 - (List.replicate (4 - l.length) '0' ++ l).length = 0 := by
    rw [List.length_append, List.length_replicate]
    omega
  rw [h4]
  simp

/-- Normalizing an id produced by the numeric branch is stable. -/
theorem normalize_numeric_output (n : Nat) :
    normalizeTagId (String.mk ('T' :: pad04 n)) =
      some (String.mk ('T' :: pad04 n)) := by
  have hchars : ∀ c ∈ ('T' :: pad04 n), isWordChar c = true ∧ pyUpper c = c := by
    intro c hc
    rcases List.mem_cons.mp hc with h | h
    · rw [h]; exact ⟨by decide, by decide⟩
    · have hf := digit_facts c (pad04_mem n c h)
      exact ⟨hf.2.1, hf.2.2.1⟩
  have hclean : cleanedTagId (String.mk ('T' :: pad04 n)) = 'T' :: pad04 n :=
    cleaned_fixed _ hchars
  have hrem : tagIdRemainder (String.mk ('T' :: pad04 n)) = pad04 n := by
    simp [tagIdRemainder, hclean]
  have hpe : (pad04 n).isEmpty = false := by
    cases hp : pad04 n with
    | nil => exact absurd hp (pad04_ne_nil n)
    | cons a l => rfl
  simp only [normalizeTagId, mk_cons_isEmpty, Bool.false_eq_true, if_false,
             hrem, hpe, pyIntParse_pad04]

/-- Normalizing an id produced by the fallback branch is stable when
zero-filling keeps the remainder unparseable. -/
theorem normalize_fallback_output (r : List Char) (hr : r ≠ [])
    (hchars : ∀ c ∈ r, isWordChar c = true ∧ pyUpper c = c)
    (hz : pyIntParse (zfill4 r) = none) :
    normalizeTagId (String.mk ('T' :: zfill4 r)) =
      some (String.mk ('T' :: zfill4 r)) := by
  have hchars2 : ∀ c ∈ ('T' :: zfill4 r),
      isWordChar c = true ∧ pyUpper c = c := by
    intro c hc
    rcases List.mem_cons.mp hc with h | h
    · rw [h]; exact ⟨by decide, by decide⟩
    · unfold zfill4 at h
      rcases List.mem_append.mp h with h2 | h2
      · rw [List.eq_of_mem_replicate h2]; exact ⟨by decide, by decide⟩
      · exact hchars c h2
  have hclean : cleanedTagId (String.mk ('T' :: zfill4 r)) = 'T' :: zfill4 r :=
    cleaned_fixed _ hchars2
  have hrem : tagIdRemainder (String.mk ('T' :: zfill4 r)) = zfill4 r := by
    simp [tagIdRemainder, hclean]
  have hzne : (zfill4 r).isEmpty = false := by
    cases hp : zfill4 r with
    | nil =>
      exfalso
      unfold zfill4 at hp
      rcases List.append_eq_nil.mp hp with ⟨-, h2⟩
      exact hr h2
    | cons a l => rfl
  simp only [normalizeTagId, mk_cons_isEmpty, Bool.false_eq_true, if_false,
             hrem, hzne, hz, zfill4_idem]

/-- C7 counterexample: the input `"_1"` normalizes successfully to
`"T00_1"`, but normalizing that again yields `"T0001"` — zero-filling
made the underscore remainder acceptable to `int()` — so
`normalize(normalize("_1")) ≠ normalize("_1")`. -/
theorem c7_counterexample :
    normalizeTagId "_1" = some "T00_1" ∧
    normalizeTagId "T00_1" = some "T0001" ∧
    ((normalizeTagId "_1").bind normalizeTagId) ≠ normalizeTagId "_1" := by
  decide

/-- C7 (amended): normalization is idempotent for every successfully
normalizing input except when the zero-padded remainder becomes
integer-parseable although the remainder itself was not (an underscore
followed by one or two digits): if the remainder is empty, parses, or
still fails to parse after zero-filling, then
`normalize (normalize s) = normalize s`. -/
theorem c7_idempotent_when_parse_stable (s y : String)
    (h : normalizeTagId s = some y)
    (hcond : tagIdRemainder s = [] ∨
      (pyIntParse (tagIdRemainder s)).isSome = true ∨
      pyIntParse (zfill4 (tagIdRemainder s)) = none) :
    normalizeTagId y = some y := by
  simp only [normalizeTagId] at h
  split_ifs at h with hs hrem
  · rw [Option.some.injEq] at h
    rw [← h]
    exact normalize_numeric_output 0
  · rcases hp : pyIntParse (tagIdRemainder s) with _ | n
    · rw [hp] at h
      rcases hcond with h1 | h2 | h3
      · exfalso; apply hrem; rw [h1]; rfl
      · rw [hp] at h2; exact absurd h2 (by simp)
      · rw [Option.some.injEq] at h
        rw [← h]
        refine normalize_fallback_output (tagIdRemainder s) ?_
          (fun c hc => mem_remainder s c hc) h3
        intro hnil
        exact hrem (by rw [hnil]; rfl)
    · rw [hp] at h
      rw [Option.some.injEq] at h
      rw [← h]
      exact normalize_numeric_output n

/-- Witness for C7 (amended): `T9` normalizes to `T0009`, whose remainder
parses, and renormalizing is stable. -/
theorem c7_witness :
    normalizeTagId "T0009" = some "T0009" :=
  c7_idempotent_when_parse_stable "T9" "T0009" (by decide)
    (Or.inr (Or.inl (by decide)))
